import Mathlib

/-!
# Paravirtualized VCPU hotplug device (`hw/vcpu_hp.c`)

A shallow embedding of the device model in `src/hw/vcpu_hp.c`.

* C integers are natural numbers or integers with the conversions of the C
  code written out: a store to an `unsigned char` is `% 256`, a conversion of
  an `int` to `unsigned int` is `% 2 ^ 32`, `~x` on an `int` is the 32-bit
  complement of its bit pattern.
* `1 << n` is the unbounded shift of Lean; it agrees with the C shift on an
  `int` for `n <= 30`, the only shifts C defines there.
* The two mask buffers are lists of bytes; `buf.getD k 0` is `buf[k]` for an
  index inside the buffer.
* The interrupt line and the CPU-lifecycle hook are outside the C struct; the
  level last driven on the line and the number of hook calls made so far are
  kept next to the device fields.
* `hw_error` and a failed `assert` abort the emulator: the guest-facing
  functions return an `Outcome` that says how the call ended and with which
  state.
* A history of the device is a list of `Op`; `run` performs it from a given
  state and stops at the first `hw_error`, `count_along` adds up a quantity
  over the operations performed.
-/

namespace VcpuHp

/-! ## Constants -/

/-- Modelled from the spec: the macro `BITS_PER_BYTE` of `bitops.h`; the spec
places bit `i` at byte `i/8`, bit `i%8`, so a byte has 8 bits. -/
def BITS_PER_BYTE : Int := 8

/-- Header offset of the mask size byte (`enum vcpu_hp_header`). -/
def VCPU_HP_HEADER_MASK_SZ : Nat := 0

/-- Header offset of the control byte (`enum vcpu_hp_header`). -/
def VCPU_HP_HEADER_CTRL : Nat := 1

/-- Number of header bytes (`enum vcpu_hp_header`, after `RES7 = 7`). -/
def VCPU_HP_HEADER_N : Nat := 8

/-- Bit offset of the Interrupt Pending Register (`enum vcpu_hp_ctrl`). -/
def VCPU_HP_CTRL_IPR : Nat := 0

/-- Bit offset of the Hotplug Pending Register (`enum vcpu_hp_ctrl`). -/
def VCPU_HP_CTRL_HPR : Nat := 1

/-! ## C integer conversions -/

/-- Conversion of an `int` value to `unsigned int`. -/
def to_unsigned (x : Int) : Nat := (x % 2 ^ 32).toNat

/-- Store of an integer value into an `unsigned char`. -/
def to_uchar (x : Nat) : Nat := x % 256

/-- The bit pattern of `~x` for an `int` whose bit pattern is `x`. -/
def int_not (x : Nat) : Nat := (2 ^ 32 - 1) ^^^ x

/-! ## Control byte helpers -/

/-- Embeds `vcpu_hp_get_creg`: `*ctrl & (1 << reg) ? 1 : 0`. -/
def vcpu_hp_get_creg (ctrl : Nat) (reg : Nat) : Nat :=
  if ctrl &&& (1 <<< reg) ≠ 0 then 1 else 0

/-- Embeds `vcpu_hp_set_creg`: `*ctrl |= (1 << reg)`, the new control byte. -/
def vcpu_hp_set_creg (ctrl : Nat) (reg : Nat) : Nat :=
  to_uchar (ctrl ||| (1 <<< reg))

/-- Embeds `vcpu_hp_clear_creg`: `*ctrl &= ~(1 << reg)`, the new control byte. -/
def vcpu_hp_clear_creg (ctrl : Nat) (reg : Nat) : Nat :=
  to_uchar (ctrl &&& int_not (1 <<< reg))

/-! ## Device state -/

/-- Embeds `struct vcpu_hp_state` together with the two things the device
drives outside itself. `irq` is the level last driven on the interrupt line
`s->irq`; `hp_requests` counts the calls of `qemu_vcpu_hp_request` made so far.
`mask_sz` is a C `int` that is the size of both buffers, hence never
negative. -/
structure vcpu_hp_state where
  mask_sz : Nat
  vcpu_mask_req : List Nat
  vcpu_mask_resp : List Nat
  ctrl : Nat
  irq : Nat
  hp_requests : Nat
deriving DecidableEq, Repr

/-- The states that are C memory states of the device: both buffers hold
`mask_sz` bytes, every byte and the control byte fit an `unsigned char`, and
`mask_sz * 2` fits an `int`. -/
def wf (s : vcpu_hp_state) : Prop :=
  s.vcpu_mask_req.length = s.mask_sz ∧
  s.vcpu_mask_resp.length = s.mask_sz ∧
  (∀ b ∈ s.vcpu_mask_req, b < 256) ∧
  (∀ b ∈ s.vcpu_mask_resp, b < 256) ∧
  s.ctrl < 256 ∧
  s.mask_sz * 2 < 2 ^ 31

instance (s : vcpu_hp_state) : Decidable (wf s) := by
  unfold wf; infer_instance

/-- Modelled from the spec: `qemu_set_irq` of QEMU's `irq.h` drives the
level-triggered interrupt line to `level`. -/
def qemu_set_irq (s : vcpu_hp_state) (level : Nat) : vcpu_hp_state :=
  { s with irq := level }

/-- Modelled from the spec: `qemu_vcpu_hp_request` of `sysemu.h` signals the
CPU-lifecycle subsystem that hotplug completion processing should run; each
call is counted. -/
def qemu_vcpu_hp_request (s : vcpu_hp_state) : vcpu_hp_state :=
  { s with hp_requests := s.hp_requests + 1 }

/-- The C library `memset` on a buffer of at least `n` bytes. -/
def memset (buf : List Nat) (c : Nat) (n : Nat) : List Nat :=
  List.replicate n (to_uchar c) ++ buf.drop n

/-- Embeds `vcpu_hp_get_state`: a null device gives no state. -/
def vcpu_hp_get_state (dev : Option vcpu_hp_state) : Option vcpu_hp_state :=
  match dev with
  | none => none
  | some s => some s

/-! ## Host-facing API -/

/-- Embeds `vcpu_hp_get_mask_offset`: the result is the returned `int`
(1 when the byte offset is below `mask_sz`), then `*off_byte`, then
`*off_bit`. `/` and `%` on `int` truncate towards zero; both results are
stored into `unsigned int` variables. -/
def vcpu_hp_get_mask_offset (s : vcpu_hp_state) (cpu_idx : Int) : Nat × Nat × Nat :=
  let off_bit := to_unsigned (Int.tmod cpu_idx BITS_PER_BYTE)
  let off_byte := to_unsigned (Int.tdiv cpu_idx BITS_PER_BYTE)
  (if off_byte < s.mask_sz then 1 else 0, off_byte, off_bit)

/-- Embeds `vcpu_hp_req_set`: the device after the call. -/
def vcpu_hp_req_set (dev : Option vcpu_hp_state) (cpu_idx : Int) : Option vcpu_hp_state :=
  match vcpu_hp_get_state dev with
  | none => dev
  | some s =>
    match vcpu_hp_get_mask_offset s cpu_idx with
    | (ok, off_byte, off_bit) =>
      if ok = 0 then some s
      else
        some { s with
          vcpu_mask_req := s.vcpu_mask_req.set off_byte
            (to_uchar (s.vcpu_mask_req.getD off_byte 0 ||| (1 <<< off_bit))) }

/-- Embeds `vcpu_hp_resp_is_set`: the returned `int`. -/
def vcpu_hp_resp_is_set (dev : Option vcpu_hp_state) (cpu_idx : Int) : Nat :=
  match vcpu_hp_get_state dev with
  | none => 0
  | some s =>
    match vcpu_hp_get_mask_offset s cpu_idx with
    | (ok, off_byte, off_bit) =>
      if ok = 0 then 0
      else if s.vcpu_mask_req.getD off_byte 0 &&& (1 <<< off_bit) ≠ 0 then 1 else 0

/-- Embeds `vcpu_hp_req_clear`: the device after the call. -/
def vcpu_hp_req_clear (dev : Option vcpu_hp_state) (cpu_idx : Int) : Option vcpu_hp_state :=
  match vcpu_hp_get_state dev with
  | none => dev
  | some s =>
    match vcpu_hp_get_mask_offset s cpu_idx with
    | (ok, off_byte, off_bit) =>
      if ok = 0 then some s
      else
        some { s with
          vcpu_mask_req := s.vcpu_mask_req.set off_byte
            (to_uchar (s.vcpu_mask_req.getD off_byte 0 &&& int_not (1 <<< off_bit))) }

/-- Embeds `vcpu_hp_req_pending`: the returned `int`. -/
def vcpu_hp_req_pending (dev : Option vcpu_hp_state) : Nat :=
  match vcpu_hp_get_state dev with
  | none => 0
  | some s => vcpu_hp_get_creg s.ctrl VCPU_HP_CTRL_HPR

/-- Embeds `vcpu_hp_req_fire`: the device after the call and the returned
`int`. -/
def vcpu_hp_req_fire (dev : Option vcpu_hp_state) : Option vcpu_hp_state × Nat :=
  match vcpu_hp_get_state dev with
  | none => (dev, 0)
  | some s =>
    if vcpu_hp_req_pending dev ≠ 0 then (some s, 0)
    else
      let s1 := { s with ctrl := vcpu_hp_set_creg s.ctrl VCPU_HP_CTRL_HPR }
      let s2 := { s1 with ctrl := vcpu_hp_set_creg s1.ctrl VCPU_HP_CTRL_IPR }
      (some (qemu_set_irq s2 1), 1)

/-- Embeds `vcpu_hp_reset`: both masks zeroed over `mask_sz` bytes, byte 0 of
the request mask set to `0x01`, the control byte zeroed. -/
def vcpu_hp_reset (s : vcpu_hp_state) : vcpu_hp_state :=
  let req := memset s.vcpu_mask_req 0 s.mask_sz
  let resp := memset s.vcpu_mask_resp 0 s.mask_sz
  { s with vcpu_mask_req := req.set 0 0x01, vcpu_mask_resp := resp, ctrl := 0x00 }

/-! ## Guest-facing MMIO -/

/-- The places where the device calls `hw_error`. -/
inductive Fault where
  | wild_read
  | wild_write_header
  | wild_write_req
  | wild_write
deriving DecidableEq, Repr

/-- How a guest-facing call ends: it returns `v` in state `s`, or it calls
`hw_error` in state `s`, or its `assert(size == 1)` fails in state `s`. -/
inductive Outcome (α : Type) where
  | ret (s : vcpu_hp_state) (v : α)
  | hw_error (s : vcpu_hp_state) (site : Fault)
  | assert_fail (s : vcpu_hp_state)
deriving DecidableEq, Repr

/-- The state in which a call ended. -/
def Outcome.state {α : Type} : Outcome α → vcpu_hp_state
  | .ret s _ => s
  | .hw_error s _ => s
  | .assert_fail s => s

/-- Embeds `vcpu_hp_read_header`. -/
def vcpu_hp_read_header (s : vcpu_hp_state) (offset : Nat) : Nat :=
  if offset = VCPU_HP_HEADER_MASK_SZ then s.mask_sz
  else if offset = VCPU_HP_HEADER_CTRL then s.ctrl
  else 0

/-- Embeds `vcpu_hp_read`. -/
def vcpu_hp_read (s : vcpu_hp_state) (offset : Nat) (size : Nat) : Outcome Nat :=
  if size ≠ 1 then .assert_fail s
  else if offset < VCPU_HP_HEADER_N then .ret s (vcpu_hp_read_header s offset)
  else
    let offset := offset - VCPU_HP_HEADER_N
    if offset < s.mask_sz then
      .ret s (s.vcpu_mask_req.getD offset 0)
    else if offset < s.mask_sz * 2 then
      let offset := offset - s.mask_sz
      .ret s (s.vcpu_mask_resp.getD offset 0)
    else
      .hw_error s .wild_read

/-- Embeds `vcpu_hp_write_ctrl`; `newctrl` is `value` stored into an
`unsigned char`. -/
def vcpu_hp_write_ctrl (s : vcpu_hp_state) (value : Nat) : vcpu_hp_state :=
  let newctrl := to_uchar value
  let s1 :=
    if vcpu_hp_get_creg s.ctrl VCPU_HP_CTRL_IPR ≠ 0 ∧
        vcpu_hp_get_creg newctrl VCPU_HP_CTRL_IPR = 0 then
      qemu_set_irq { s with ctrl := vcpu_hp_clear_creg s.ctrl VCPU_HP_CTRL_IPR } 0
    else s
  if vcpu_hp_get_creg s1.ctrl VCPU_HP_CTRL_HPR ≠ 0 ∧
      vcpu_hp_get_creg newctrl VCPU_HP_CTRL_HPR = 0 then
    qemu_vcpu_hp_request { s1 with ctrl := vcpu_hp_clear_creg s1.ctrl VCPU_HP_CTRL_HPR }
  else s1

/-- Embeds `vcpu_hp_write_header`: only the control byte case returns, every
other offset reaches `hw_error`. -/
def vcpu_hp_write_header (s : vcpu_hp_state) (offset : Nat) (value : Nat) : Outcome Unit :=
  if offset = VCPU_HP_HEADER_MASK_SZ then .hw_error s .wild_write_header
  else if offset = VCPU_HP_HEADER_CTRL then .ret (vcpu_hp_write_ctrl s value) ()
  else .hw_error s .wild_write_header

/-- Embeds `vcpu_hp_write`. -/
def vcpu_hp_write (s : vcpu_hp_state) (offset : Nat) (value : Nat) (size : Nat) :
    Outcome Unit :=
  if size ≠ 1 then .assert_fail s
  else if offset < VCPU_HP_HEADER_N then vcpu_hp_write_header s offset value
  else
    let offset := offset - VCPU_HP_HEADER_N
    if offset < s.mask_sz then
      .hw_error s .wild_write_req
    else if offset < s.mask_sz * 2 then
      let offset := offset - s.mask_sz
      .ret { s with vcpu_mask_resp := s.vcpu_mask_resp.set offset (to_uchar value) } ()
    else
      .hw_error s .wild_write

/-- A two-byte device in an arbitrary, non-reset state. -/
def sample : vcpu_hp_state :=
  { mask_sz := 2, vcpu_mask_req := [0xA5, 0x0F], vcpu_mask_resp := [0x11, 0x80],
    ctrl := 0x03, irq := 1, hp_requests := 0 }

/-- A one-byte device as `vcpu_hp_reset` leaves it, interrupt line low. -/
def sample_reset : vcpu_hp_state :=
  { mask_sz := 1, vcpu_mask_req := [0x01], vcpu_mask_resp := [0x00],
    ctrl := 0x00, irq := 0, hp_requests := 0 }

/-! ## Construction -/

/-- The glib `g_malloc`: a fresh buffer of `n` bytes whose contents are not
initialised; `junk k` is whatever byte `k` happens to hold. -/
def g_malloc (n : Nat) (junk : Nat → Nat) : List Nat :=
  (List.range n).map (fun k => to_uchar (junk k))

/-- Embeds the mask size computation of `vcpu_hp_init`:
`max_cpus / BITS_PER_BYTE + (max_cpus % BITS_PER_BYTE ? 1 : 0)` on `int`. -/
def vcpu_hp_init_mask_sz (max_cpus : Int) : Int :=
  Int.tdiv max_cpus BITS_PER_BYTE + (if Int.tmod max_cpus BITS_PER_BYTE ≠ 0 then 1 else 0)

/-- Embeds the state set-up of `vcpu_hp_init`: the mask size is computed from
the global `max_cpus` of `sysemu.h`, both buffers are allocated with
`g_malloc`, and `vcpu_hp_reset` is called. The interrupt line has not been
driven and the hook has not been called. -/
def vcpu_hp_init (max_cpus : Int) (junk_req junk_resp : Nat → Nat) : vcpu_hp_state :=
  let mask_sz := (vcpu_hp_init_mask_sz max_cpus).toNat
  vcpu_hp_reset
    { mask_sz := mask_sz,
      vcpu_mask_req := g_malloc mask_sz junk_req,
      vcpu_mask_resp := g_malloc mask_sz junk_resp,
      ctrl := 0, irq := 0, hp_requests := 0 }

/-! ## Sequences of operations -/

/-- The operations the host and the guest perform on the device. Guest
accesses are one byte wide, as `vcpu_hp_ops` declares. -/
inductive Op where
  | req_set (cpu_idx : Int)
  | req_clear (cpu_idx : Int)
  | req_fire
  | reset
  | read (offset : Nat)
  | write (offset : Nat) (value : Nat)
deriving DecidableEq, Repr

/-- One operation on a device in state `s`. -/
def step (s : vcpu_hp_state) : Op → Outcome Unit
  | .req_set i => .ret ((vcpu_hp_req_set (some s) i).getD s) ()
  | .req_clear i => .ret ((vcpu_hp_req_clear (some s) i).getD s) ()
  | .req_fire => .ret ((vcpu_hp_req_fire (some s)).1.getD s) ()
  | .reset => .ret (vcpu_hp_reset s) ()
  | .read o =>
    match vcpu_hp_read s o 1 with
    | .ret t _ => .ret t ()
    | .hw_error t site => .hw_error t site
    | .assert_fail t => .assert_fail t
  | .write o v => vcpu_hp_write s o v 1

/-- The state after a sequence of operations; `hw_error` ends the run in the
state in which it was raised. -/
def run (s : vcpu_hp_state) : List Op → vcpu_hp_state
  | [] => s
  | op :: ops =>
    match step s op with
    | .ret t _ => run t ops
    | .hw_error t _ => t
    | .assert_fail t => t

/-- The sum of `f` over the operations of a run, each taken with the state it
is performed in. -/
def count_along (f : vcpu_hp_state → Op → Nat) (s : vcpu_hp_state) : List Op → Nat
  | [] => 0
  | op :: ops =>
    f s op +
      match step s op with
      | .ret t _ => count_along f t ops
      | .hw_error _ _ => 0
      | .assert_fail _ => 0

/-- The number of calls of `qemu_vcpu_hp_request` made by `op` in state `s`. -/
def hook_calls (s : vcpu_hp_state) (op : Op) : Nat :=
  (step s op).state.hp_requests - s.hp_requests

/-- 1 when `op` is a `vcpu_hp_req_fire` that returns 1 in state `s`. -/
def fire_ok (s : vcpu_hp_state) (op : Op) : Nat :=
  match op with
  | .req_fire => (vcpu_hp_req_fire (some s)).2
  | _ => 0

/-- 1 when `op` is a guest write that takes HPR from 1 to 0 in state `s`. -/
def hpr_drop (s : vcpu_hp_state) (op : Op) : Nat :=
  match op with
  | .write o v =>
    if vcpu_hp_get_creg s.ctrl VCPU_HP_CTRL_HPR = 1 ∧
        vcpu_hp_get_creg (vcpu_hp_write s o v 1).state.ctrl VCPU_HP_CTRL_HPR = 0 then 1
    else 0
  | _ => 0

/-! ## Checks of the embedding on concrete inputs -/

example : wf sample := by decide
example : (vcpu_hp_reset sample).vcpu_mask_req = [1, 0] := by decide
example : vcpu_hp_read sample 9 1 = .ret sample 0x0F := by decide
example : vcpu_hp_read sample 12 1 = .hw_error sample .wild_read := by decide
example : (vcpu_hp_req_fire (some sample)).2 = 0 := by decide
example : vcpu_hp_get_mask_offset sample 13 = (1, 1, 5) := by decide
example : vcpu_hp_get_mask_offset sample (-1) = (1, 0, 4294967295) := by decide
example : vcpu_hp_get_mask_offset sample (-8) = (0, 4294967295, 0) := by decide
example : vcpu_hp_init_mask_sz 9 = 2 := by decide
example : vcpu_hp_init_mask_sz 16 = 2 := by decide
example : (run sample_reset [.req_fire, .write 1 2]).ctrl = 2 := by decide
example : (run sample_reset [.req_fire, .write 0 0, .reset]).ctrl = 3 := by decide
example : count_along fire_ok sample_reset [.req_fire, .req_fire, .write 1 0, .req_fire] = 2 := by
  decide
example : count_along hook_calls sample_reset
    [.req_fire, .write 1 2, .write 1 0, .write 1 0, .req_fire, .reset] = 1 := by
  decide
example : count_along hpr_drop sample_reset
    [.req_fire, .write 1 2, .write 1 0, .write 1 0, .req_fire, .reset] = 1 := by
  decide

/-! ## Bit-level lemmas -/

theorem get_creg_eq (c r : Nat) : vcpu_hp_get_creg c r = (c.testBit r).toNat := by
  unfold vcpu_hp_get_creg
  rw [Nat.one_shiftLeft, Nat.and_two_pow]
  cases c.testBit r <;> simp

theorem testBit_to_uchar (x j : Nat) :
    (to_uchar x).testBit j = (decide (j < 8) && x.testBit j) := by
  unfold to_uchar
  rw [show (256 : Nat) = 2 ^ 8 by norm_num, Nat.testBit_mod_two_pow]

theorem testBit_int_not (x j : Nat) :
    (int_not x).testBit j = (decide (j < 32) ^^ x.testBit j) := by
  unfold int_not
  rw [Nat.testBit_xor, Nat.testBit_two_pow_sub_one]

theorem testBit_or_bit (x b j : Nat) :
    (to_uchar (x ||| (1 <<< b))).testBit j
      = (decide (j < 8) && (x.testBit j || decide (b = j))) := by
  rw [testBit_to_uchar, Nat.testBit_lor, Nat.one_shiftLeft, Nat.testBit_two_pow]

theorem testBit_and_not_bit (x b j : Nat) :
    (to_uchar (x &&& int_not (1 <<< b))).testBit j
      = (decide (j < 8) && (x.testBit j && !decide (b = j))) := by
  rw [testBit_to_uchar, Nat.testBit_land, testBit_int_not, Nat.one_shiftLeft,
    Nat.testBit_two_pow]
  by_cases h : j < 8
  · have h32 : j < 32 := by omega
    simp [h, h32]
  · simp [h]

theorem testBit_set_creg (c r j : Nat) :
    (vcpu_hp_set_creg c r).testBit j
      = (decide (j < 8) && (c.testBit j || decide (r = j))) :=
  testBit_or_bit c r j

theorem testBit_clear_creg (c r j : Nat) :
    (vcpu_hp_clear_creg c r).testBit j
      = (decide (j < 8) && (c.testBit j && !decide (r = j))) :=
  testBit_and_not_bit c r j

theorem get_creg_zero_or_one (c r : Nat) :
    vcpu_hp_get_creg c r = 0 ∨ vcpu_hp_get_creg c r = 1 := by
  rw [get_creg_eq]; cases c.testBit r <;> simp

/-! ## Reset -/

theorem memset_full (buf : List Nat) (n : Nat) (h : buf.length = n) :
    memset buf 0 n = List.replicate n 0 := by
  unfold memset to_uchar
  rw [List.drop_of_length_le (by omega)]
  simp

/-- C1: for every controller state with `mask_sz >= 1`, whatever its masks,
control byte and pending flags were, after `vcpu_hp_reset` the request mask has
byte 0 equal to `0x01` and every other byte 0, every byte of the response mask
is 0, the control byte is 0, and `mask_sz` is unchanged. -/
theorem C1_reset_canonical (s : vcpu_hp_state) (hwf : wf s) (h1 : 1 ≤ s.mask_sz) :
    (vcpu_hp_reset s).vcpu_mask_req = 0x01 :: List.replicate (s.mask_sz - 1) 0 ∧
    (vcpu_hp_reset s).vcpu_mask_resp = List.replicate s.mask_sz 0 ∧
    (vcpu_hp_reset s).ctrl = 0 ∧
    (vcpu_hp_reset s).mask_sz = s.mask_sz := by
  obtain ⟨hreq, hresp, -⟩ := hwf
  obtain ⟨n, hn⟩ : ∃ n, s.mask_sz = n + 1 := ⟨s.mask_sz - 1, by omega⟩
  refine ⟨?_, ?_, rfl, rfl⟩
  · show (memset s.vcpu_mask_req 0 s.mask_sz).set 0 0x01 = _
    rw [memset_full _ _ hreq, hn, List.replicate_succ, List.set_cons_zero]
    simp
  · show memset s.vcpu_mask_resp 0 s.mask_sz = _
    exact memset_full _ _ hresp

theorem C1_reset_canonical_witness :
    wf sample ∧ 1 ≤ sample.mask_sz ∧
    (vcpu_hp_reset sample).vcpu_mask_req = 0x01 :: List.replicate (sample.mask_sz - 1) 0 ∧
    (vcpu_hp_reset sample).vcpu_mask_resp = List.replicate sample.mask_sz 0 ∧
    (vcpu_hp_reset sample).ctrl = 0 ∧
    (vcpu_hp_reset sample).mask_sz = sample.mask_sz :=
  ⟨by decide, by decide, C1_reset_canonical sample (by decide) (by decide)⟩

/-! ## Fire -/

theorem fire_of_pending (s : vcpu_hp_state)
    (h : vcpu_hp_get_creg s.ctrl VCPU_HP_CTRL_HPR = 1) :
    vcpu_hp_req_fire (some s) = (some s, 0) := by
  simp [vcpu_hp_req_fire, vcpu_hp_get_state, vcpu_hp_req_pending, h]

theorem fire_of_not_pending (s : vcpu_hp_state)
    (h : vcpu_hp_get_creg s.ctrl VCPU_HP_CTRL_HPR = 0) :
    vcpu_hp_req_fire (some s) =
      (some { s with
        ctrl := vcpu_hp_set_creg (vcpu_hp_set_creg s.ctrl VCPU_HP_CTRL_HPR) VCPU_HP_CTRL_IPR,
        irq := 1 }, 1) := by
  simp [vcpu_hp_req_fire, vcpu_hp_get_state, vcpu_hp_req_pending, h, qemu_set_irq]

theorem fired_ctrl_bits (c : Nat) :
    vcpu_hp_get_creg
        (vcpu_hp_set_creg (vcpu_hp_set_creg c VCPU_HP_CTRL_HPR) VCPU_HP_CTRL_IPR)
        VCPU_HP_CTRL_IPR = 1 ∧
    vcpu_hp_get_creg
        (vcpu_hp_set_creg (vcpu_hp_set_creg c VCPU_HP_CTRL_HPR) VCPU_HP_CTRL_IPR)
        VCPU_HP_CTRL_HPR = 1 := by
  constructor
  · rw [get_creg_eq, testBit_set_creg]; simp [VCPU_HP_CTRL_IPR]
  · rw [get_creg_eq, testBit_set_creg, testBit_set_creg]
    simp [VCPU_HP_CTRL_IPR, VCPU_HP_CTRL_HPR]

/-- C2: for every controller state `vcpu_hp_req_fire` returns 1 if and only if
the HPR bit was 0 before the call. When it returns 1 the control byte has both
IPR and HPR set, the interrupt line is raised and both masks are unchanged;
when it returns 0 the whole state is unchanged. In particular fire right after
reset succeeds and an immediately following second fire fails and changes
nothing. -/
theorem C2_fire_contract (s : vcpu_hp_state) :
    ((vcpu_hp_get_creg s.ctrl VCPU_HP_CTRL_HPR = 0 ∧
        ∃ t, vcpu_hp_req_fire (some s) = (some t, 1) ∧
          vcpu_hp_get_creg t.ctrl VCPU_HP_CTRL_IPR = 1 ∧
          vcpu_hp_get_creg t.ctrl VCPU_HP_CTRL_HPR = 1 ∧
          t.irq = 1 ∧
          t.vcpu_mask_req = s.vcpu_mask_req ∧
          t.vcpu_mask_resp = s.vcpu_mask_resp ∧
          t.mask_sz = s.mask_sz ∧
          t.hp_requests = s.hp_requests) ∨
      (vcpu_hp_get_creg s.ctrl VCPU_HP_CTRL_HPR = 1 ∧
        vcpu_hp_req_fire (some s) = (some s, 0))) ∧
    (∃ t, vcpu_hp_req_fire (some (vcpu_hp_reset s)) = (some t, 1) ∧
      vcpu_hp_get_creg t.ctrl VCPU_HP_CTRL_IPR = 1 ∧
      vcpu_hp_get_creg t.ctrl VCPU_HP_CTRL_HPR = 1 ∧
      t.irq = 1 ∧
      vcpu_hp_req_fire (some t) = (some t, 0)) := by
  constructor
  · rcases get_creg_zero_or_one s.ctrl VCPU_HP_CTRL_HPR with h | h
    · left
      refine ⟨h, _, fire_of_not_pending s h, ?_, ?_, rfl, rfl, rfl, rfl, rfl⟩
      · exact (fired_ctrl_bits s.ctrl).1
      · exact (fired_ctrl_bits s.ctrl).2
    · right
      exact ⟨h, fire_of_pending s h⟩
  · have h0 : vcpu_hp_get_creg (vcpu_hp_reset s).ctrl VCPU_HP_CTRL_HPR = 0 := by
      show vcpu_hp_get_creg 0 VCPU_HP_CTRL_HPR = 0
      decide
    refine ⟨_, fire_of_not_pending _ h0, ?_, ?_, rfl, ?_⟩
    · exact (fired_ctrl_bits _).1
    · exact (fired_ctrl_bits _).2
    · exact fire_of_pending _ (fired_ctrl_bits _).2

/-! ## Guest writes of the control byte -/

theorem get_creg_to_uchar (v r : Nat) (hr : r < 8) :
    vcpu_hp_get_creg (to_uchar v) r = (v.testBit r).toNat := by
  rw [get_creg_eq, testBit_to_uchar]; simp [hr]

theorem write_ctrl_offset (s : vcpu_hp_state) (v : Nat) :
    vcpu_hp_write s VCPU_HP_HEADER_CTRL v 1 = .ret (vcpu_hp_write_ctrl s v) () := by
  simp [vcpu_hp_write, vcpu_hp_write_header, VCPU_HP_HEADER_CTRL, VCPU_HP_HEADER_N,
    VCPU_HP_HEADER_MASK_SZ]

theorem get_creg_clear_same (c r : Nat) :
    vcpu_hp_get_creg (vcpu_hp_clear_creg c r) r = 0 := by
  rw [get_creg_eq, testBit_clear_creg]; simp

theorem get_creg_clear_other (c r q : Nat) (hq : q < 8) (hne : r ≠ q) :
    vcpu_hp_get_creg (vcpu_hp_clear_creg c r) q = vcpu_hp_get_creg c q := by
  rw [get_creg_eq, get_creg_eq, testBit_clear_creg]; simp [hq, hne]

/-- C3: for every state in which IPR and HPR are both set, a guest byte write
to offset 1 of any value whose bit 0 is 0 and whose bit 1 is 1 lowers the
interrupt line, clears IPR, leaves HPR set, and sends no completion signal to
the CPU-lifecycle collaborator. -/
theorem C3_write_ctrl_clear_ipr_only (s : vcpu_hp_state) (v : Nat)
    (hI : vcpu_hp_get_creg s.ctrl VCPU_HP_CTRL_IPR = 1)
    (hH : vcpu_hp_get_creg s.ctrl VCPU_HP_CTRL_HPR = 1)
    (hv0 : v.testBit 0 = false) (hv1 : v.testBit 1 = true) :
    ∃ t, vcpu_hp_write s 1 v 1 = .ret t () ∧
      t.irq = 0 ∧
      vcpu_hp_get_creg t.ctrl VCPU_HP_CTRL_IPR = 0 ∧
      vcpu_hp_get_creg t.ctrl VCPU_HP_CTRL_HPR = 1 ∧
      t.hp_requests = s.hp_requests ∧
      t.vcpu_mask_req = s.vcpu_mask_req ∧
      t.vcpu_mask_resp = s.vcpu_mask_resp ∧
      t.mask_sz = s.mask_sz := by
  have hn0 : vcpu_hp_get_creg (to_uchar v) VCPU_HP_CTRL_IPR = 0 := by
    rw [get_creg_to_uchar v _ (by decide)]; simp [VCPU_HP_CTRL_IPR, hv0]
  have hn1 : vcpu_hp_get_creg (to_uchar v) VCPU_HP_CTRL_HPR = 1 := by
    rw [get_creg_to_uchar v _ (by decide)]; simp [VCPU_HP_CTRL_HPR, hv1]
  have hH1 : vcpu_hp_get_creg (vcpu_hp_clear_creg s.ctrl VCPU_HP_CTRL_IPR)
      VCPU_HP_CTRL_HPR = 1 := by
    rw [get_creg_clear_other _ _ _ (by decide) (by decide)]; exact hH
  have hw : vcpu_hp_write_ctrl s v =
      { s with ctrl := vcpu_hp_clear_creg s.ctrl VCPU_HP_CTRL_IPR, irq := 0 } := by
    simp [vcpu_hp_write_ctrl, hI, hn0, hn1, qemu_set_irq]
  refine ⟨_, write_ctrl_offset s v, ?_⟩
  rw [hw]
  exact ⟨rfl, get_creg_clear_same _ _, hH1, rfl, rfl, rfl, rfl⟩

theorem C3_write_ctrl_clear_ipr_only_witness :
    ∃ t, vcpu_hp_write sample 1 2 1 = .ret t () ∧
      t.irq = 0 ∧
      vcpu_hp_get_creg t.ctrl VCPU_HP_CTRL_IPR = 0 ∧
      vcpu_hp_get_creg t.ctrl VCPU_HP_CTRL_HPR = 1 ∧
      t.hp_requests = sample.hp_requests ∧
      t.vcpu_mask_req = sample.vcpu_mask_req ∧
      t.vcpu_mask_resp = sample.vcpu_mask_resp ∧
      t.mask_sz = sample.mask_sz :=
  C3_write_ctrl_clear_ipr_only sample 2 (by decide) (by decide) (by decide) (by decide)

/-! ## Offset decoding of guest accesses -/

/-- C5: for every state and every offset, a 1-byte guest write is accepted if
and only if `offset = 1` or `8 + mask_sz <= offset < 8 + 2*mask_sz`. Every
other write (offset 0, offsets 2..7, the request-mask range and any offset
from `8 + 2*mask_sz` on) ends in `hw_error` and leaves the request mask, the
response mask, the control byte and the interrupt line unchanged. -/
theorem C5_write_accepted_iff (s : vcpu_hp_state) (offset v : Nat) :
    ((offset = 1 ∨ (8 + s.mask_sz ≤ offset ∧ offset < 8 + 2 * s.mask_sz)) ∧
        ∃ t, vcpu_hp_write s offset v 1 = .ret t ()) ∨
    (¬ (offset = 1 ∨ (8 + s.mask_sz ≤ offset ∧ offset < 8 + 2 * s.mask_sz)) ∧
        ∃ site, vcpu_hp_write s offset v 1 = .hw_error s site) := by
  by_cases h8 : offset < 8
  · by_cases h1 : offset = 1
    · left
      subst h1
      exact ⟨Or.inl rfl, _, write_ctrl_offset s v⟩
    · right
      refine ⟨by omega, Fault.wild_write_header, ?_⟩
      by_cases h0 : offset = 0 <;>
        simp [vcpu_hp_write, vcpu_hp_write_header, VCPU_HP_HEADER_N, VCPU_HP_HEADER_CTRL,
          VCPU_HP_HEADER_MASK_SZ, h8, h1, h0]
  · by_cases hreq : offset - 8 < s.mask_sz
    · right
      refine ⟨by omega, Fault.wild_write_req, ?_⟩
      simp [vcpu_hp_write, VCPU_HP_HEADER_N, h8, hreq]
    · by_cases hresp : offset - 8 < s.mask_sz * 2
      · left
        refine ⟨Or.inr (by omega),
          { s with vcpu_mask_resp :=
              s.vcpu_mask_resp.set (offset - 8 - s.mask_sz) (to_uchar v) }, ?_⟩
        simp [vcpu_hp_write, VCPU_HP_HEADER_N, h8, hreq, hresp]
      · right
        refine ⟨by omega, Fault.wild_write, ?_⟩
        simp [vcpu_hp_write, VCPU_HP_HEADER_N, h8, hreq, hresp]

/-- C6: for every state and every offset, a 1-byte guest read ends in
`hw_error` (wild read) if and only if `offset >= 8 + 2*mask_sz`; in particular
the read at offset `8 + 2*mask_sz`, the first byte past the response mask, is
rejected, and every read at an offset below it returns a value. -/
theorem C6_read_wild_iff (s : vcpu_hp_state) (offset : Nat) :
    ((8 + 2 * s.mask_sz ≤ offset ∧
        vcpu_hp_read s offset 1 = .hw_error s Fault.wild_read) ∨
      (offset < 8 + 2 * s.mask_sz ∧ ∃ v, vcpu_hp_read s offset 1 = .ret s v)) ∧
    vcpu_hp_read s (8 + 2 * s.mask_sz) 1 = .hw_error s Fault.wild_read := by
  have key : ∀ o, 8 + 2 * s.mask_sz ≤ o →
      vcpu_hp_read s o 1 = .hw_error s Fault.wild_read := by
    intro o ho
    have h8 : ¬ o < 8 := by omega
    have hreq : ¬ o - 8 < s.mask_sz := by omega
    have hresp : ¬ o - 8 < s.mask_sz * 2 := by omega
    simp [vcpu_hp_read, VCPU_HP_HEADER_N, h8, hreq, hresp]
  refine ⟨?_, key _ (Nat.le_refl _)⟩
  by_cases hw : 8 + 2 * s.mask_sz ≤ offset
  · exact Or.inl ⟨hw, key _ hw⟩
  · right
    refine ⟨by omega, ?_⟩
    by_cases h8 : offset < 8
    · exact ⟨vcpu_hp_read_header s offset, by simp [vcpu_hp_read, VCPU_HP_HEADER_N, h8]⟩
    · by_cases hreq : offset - 8 < s.mask_sz
      · exact ⟨s.vcpu_mask_req.getD (offset - 8) 0,
          by simp [vcpu_hp_read, VCPU_HP_HEADER_N, h8, hreq]⟩
      · have hresp : offset - 8 < s.mask_sz * 2 := by omega
        exact ⟨s.vcpu_mask_resp.getD (offset - 8 - s.mask_sz) 0,
          by simp [vcpu_hp_read, VCPU_HP_HEADER_N, h8, hreq, hresp]⟩

theorem read_req_byte (s : vcpu_hp_state) (k : Nat) (hk : k < s.mask_sz) :
    vcpu_hp_read s (8 + k) 1 = .ret s (s.vcpu_mask_req.getD k 0) := by
  have h8 : ¬ 8 + k < 8 := by omega
  simp [vcpu_hp_read, VCPU_HP_HEADER_N, hk]

theorem read_resp_byte (s : vcpu_hp_state) (k : Nat) (hk : k < s.mask_sz) :
    vcpu_hp_read s (8 + s.mask_sz + k) 1 = .ret s (s.vcpu_mask_resp.getD k 0) := by
  have h8 : ¬ 8 + s.mask_sz + k < 8 := by omega
  have e : 8 + s.mask_sz + k - 8 = s.mask_sz + k := by omega
  have hreq : ¬ s.mask_sz + k < s.mask_sz := by omega
  have hresp : s.mask_sz + k < s.mask_sz * 2 := by omega
  simp [vcpu_hp_read, VCPU_HP_HEADER_N, h8, e, hreq, hresp]

/-- C7: for every state and every accepted 1-byte guest read, the value
returned is `mask_sz` at offset 0, the control byte at offset 1, 0 at offsets
2..7, `request_mask[k]` at offset `8 + k` and `response_mask[k]` at offset
`8 + mask_sz + k` for every `k < mask_sz`; the read leaves the whole state
unchanged (the outcome carries the state it was given). -/
theorem C7_read_values (s : vcpu_hp_state) :
    vcpu_hp_read s 0 1 = .ret s s.mask_sz ∧
    vcpu_hp_read s 1 1 = .ret s s.ctrl ∧
    (∀ o, 2 ≤ o → o < 8 → vcpu_hp_read s o 1 = .ret s 0) ∧
    (∀ k, k < s.mask_sz →
      vcpu_hp_read s (8 + k) 1 = .ret s (s.vcpu_mask_req.getD k 0)) ∧
    (∀ k, k < s.mask_sz →
      vcpu_hp_read s (8 + s.mask_sz + k) 1 = .ret s (s.vcpu_mask_resp.getD k 0)) ∧
    (∀ o, (vcpu_hp_read s o 1).state = s) := by
  refine ⟨by simp [vcpu_hp_read, vcpu_hp_read_header, VCPU_HP_HEADER_N,
      VCPU_HP_HEADER_MASK_SZ],
    by simp [vcpu_hp_read, vcpu_hp_read_header, VCPU_HP_HEADER_N,
      VCPU_HP_HEADER_MASK_SZ, VCPU_HP_HEADER_CTRL],
    ?_, read_req_byte s, read_resp_byte s, ?_⟩
  · intro o h2 h8
    have h0 : o ≠ 0 := by omega
    have h1 : o ≠ 1 := by omega
    simp [vcpu_hp_read, vcpu_hp_read_header, VCPU_HP_HEADER_N, VCPU_HP_HEADER_MASK_SZ,
      VCPU_HP_HEADER_CTRL, h8, h0, h1]
  · intro o
    unfold vcpu_hp_read
    simp only [Outcome.state]
    split_ifs <;> rfl

/-! ## Request mask bits -/

theorem get_mask_offset_nonneg (s : vcpu_hp_state) (i : Int) (h0 : 0 ≤ i)
    (h : i / 8 < 2 ^ 32) :
    vcpu_hp_get_mask_offset s i =
      (if (i / 8).toNat < s.mask_sz then 1 else 0, (i / 8).toNat, (i % 8).toNat) := by
  have hd : 0 ≤ i / 8 := Int.ediv_nonneg h0 (by decide)
  have hm0 : 0 ≤ i % 8 := Int.emod_nonneg i (by decide)
  have hm8 : i % 8 < 8 := Int.emod_lt_of_pos i (by decide)
  unfold vcpu_hp_get_mask_offset to_unsigned BITS_PER_BYTE
  rw [Int.tdiv_eq_ediv h0 (by decide), Int.tmod_eq_emod h0 (by decide),
    Int.emod_eq_of_lt hd h, Int.emod_eq_of_lt hm0 (by omega)]

theorem getD_lt_256 (l : List Nat) (k : Nat) (h : ∀ b ∈ l, b < 256) :
    l.getD k 0 < 256 := by
  rw [List.getD_eq_getElem?_getD]
  cases hk : l[k]? with
  | none => simp
  | some b => simpa using h b (List.getElem?_mem hk)

theorem or_bit_uchar (x b : Nat) (hx : x < 256) (hb : b < 8) :
    to_uchar (x ||| (1 <<< b)) = x ||| (1 <<< b) := by
  unfold to_uchar
  apply Nat.mod_eq_of_lt
  have h1 : (1 : Nat) <<< b < 2 ^ 8 := by
    rw [Nat.one_shiftLeft]
    exact Nat.pow_lt_pow_right (by decide) hb
  exact Nat.or_lt_two_pow (by simpa using hx) h1

theorem and_not_bit_uchar (x b : Nat) (hx : x < 256) :
    to_uchar (x &&& int_not (1 <<< b)) = x &&& int_not (1 <<< b) := by
  unfold to_uchar
  exact Nat.mod_eq_of_lt (Nat.lt_of_le_of_lt Nat.and_le_left hx)

theorem testBit_lt_256 (x j : Nat) (hx : x < 256) (hj : 8 ≤ j) : x.testBit j = false := by
  apply Nat.testBit_lt_two_pow
  calc x < 2 ^ 8 := by simpa using hx
    _ ≤ 2 ^ j := Nat.pow_le_pow_right (by decide) hj

theorem getD_set_self (l : List Nat) (k a : Nat) (hk : k < l.length) :
    (l.set k a).getD k 0 = a := by
  rw [List.getD_eq_getElem?_getD, List.getElem?_set_self hk]; rfl

theorem req_set_in_range (s : vcpu_hp_state) (i : Int) (h0 : 0 ≤ i)
    (hi : i / 8 < (s.mask_sz : Int)) (hsz : s.mask_sz * 2 < 2 ^ 31) :
    vcpu_hp_req_set (some s) i =
      some { s with
        vcpu_mask_req := s.vcpu_mask_req.set (i / 8).toNat
          (to_uchar (s.vcpu_mask_req.getD (i / 8).toNat 0 ||| (1 <<< (i % 8).toNat))) } := by
  have hlt : (i / 8).toNat < s.mask_sz := by omega
  have hne : ¬ ((if (i / 8).toNat < s.mask_sz then 1 else 0 : Nat) = 0) := by simp [hlt]
  unfold vcpu_hp_req_set vcpu_hp_get_state
  simp only []
  rw [get_mask_offset_nonneg s i h0 (by omega)]
  simp only [hne, if_false]

theorem req_clear_in_range (s : vcpu_hp_state) (i : Int) (h0 : 0 ≤ i)
    (hi : i / 8 < (s.mask_sz : Int)) (hsz : s.mask_sz * 2 < 2 ^ 31) :
    vcpu_hp_req_clear (some s) i =
      some { s with
        vcpu_mask_req := s.vcpu_mask_req.set (i / 8).toNat
          (to_uchar (s.vcpu_mask_req.getD (i / 8).toNat 0
            &&& int_not (1 <<< (i % 8).toNat))) } := by
  have hlt : (i / 8).toNat < s.mask_sz := by omega
  have hne : ¬ ((if (i / 8).toNat < s.mask_sz then 1 else 0 : Nat) = 0) := by simp [hlt]
  unfold vcpu_hp_req_clear vcpu_hp_get_state
  simp only []
  rw [get_mask_offset_nonneg s i h0 (by omega)]
  simp only [hne, if_false]

theorem read_req_after_set (s : vcpu_hp_state) (k a : Nat) (hk : k < s.mask_sz)
    (hlen : s.vcpu_mask_req.length = s.mask_sz) :
    vcpu_hp_read { s with vcpu_mask_req := s.vcpu_mask_req.set k a } (8 + k) 1 =
      .ret { s with vcpu_mask_req := s.vcpu_mask_req.set k a } a := by
  have h := read_req_byte { s with vcpu_mask_req := s.vcpu_mask_req.set k a } k hk
  rw [h]
  show Outcome.ret _ ((s.vcpu_mask_req.set k a).getD k 0) = _
  rw [getD_set_self _ _ _ (by omega)]

/-- C9: for every state and every cpu index `i` with `0 <= i` and
`i/8 < mask_sz`, `vcpu_hp_req_set(i)` changes only bit `i%8` (least significant
bit first) of request-mask byte `i/8`, setting it to 1, and
`vcpu_hp_req_clear(i)` changes only that bit, setting it to 0: a guest read at
offset `8 + i/8` afterwards returns the old byte OR-ed with `1 << i%8`,
respectively AND-ed with its complement, and every other request-mask byte,
the response mask, the control byte and the interrupt line are unchanged. -/
theorem C9_req_set_clear_frame (s : vcpu_hp_state) (hwf : wf s) (i : Int) (h0 : 0 ≤ i)
    (hi : i / 8 < (s.mask_sz : Int)) :
    (∃ t, vcpu_hp_req_set (some s) i = some t ∧
      vcpu_hp_read t (8 + (i / 8).toNat) 1 =
        .ret t (s.vcpu_mask_req.getD (i / 8).toNat 0 ||| (1 <<< (i % 8).toNat)) ∧
      (∀ j, (t.vcpu_mask_req.getD (i / 8).toNat 0).testBit j =
        ((s.vcpu_mask_req.getD (i / 8).toNat 0).testBit j || decide (j = (i % 8).toNat))) ∧
      (∀ k, k ≠ (i / 8).toNat → t.vcpu_mask_req[k]? = s.vcpu_mask_req[k]?) ∧
      t.vcpu_mask_req.length = s.vcpu_mask_req.length ∧
      t.vcpu_mask_resp = s.vcpu_mask_resp ∧ t.ctrl = s.ctrl ∧ t.irq = s.irq ∧
      t.mask_sz = s.mask_sz ∧ t.hp_requests = s.hp_requests) ∧
    (∃ u, vcpu_hp_req_clear (some s) i = some u ∧
      vcpu_hp_read u (8 + (i / 8).toNat) 1 =
        .ret u (s.vcpu_mask_req.getD (i / 8).toNat 0 &&& int_not (1 <<< (i % 8).toNat)) ∧
      (∀ j, (u.vcpu_mask_req.getD (i / 8).toNat 0).testBit j =
        ((s.vcpu_mask_req.getD (i / 8).toNat 0).testBit j && !decide (j = (i % 8).toNat))) ∧
      (∀ k, k ≠ (i / 8).toNat → u.vcpu_mask_req[k]? = s.vcpu_mask_req[k]?) ∧
      u.vcpu_mask_req.length = s.vcpu_mask_req.length ∧
      u.vcpu_mask_resp = s.vcpu_mask_resp ∧ u.ctrl = s.ctrl ∧ u.irq = s.irq ∧
      u.mask_sz = s.mask_sz ∧ u.hp_requests = s.hp_requests) := by
  obtain ⟨hlen, -, hbytes, -, -, hsz⟩ := hwf
  have hlt : (i / 8).toNat < s.mask_sz := by omega
  have hb : (i % 8).toNat < 8 := by
    have := Int.emod_lt_of_pos i (show (0 : Int) < 8 by decide)
    have := Int.emod_nonneg i (show (8 : Int) ≠ 0 by decide)
    omega
  have hold : s.vcpu_mask_req.getD (i / 8).toNat 0 < 256 := getD_lt_256 _ _ hbytes
  constructor
  · refine ⟨_, req_set_in_range s i h0 hi hsz, ?_, ?_, ?_, ?_, rfl, rfl, rfl, rfl, rfl⟩
    · rw [read_req_after_set s _ _ hlt hlen, or_bit_uchar _ _ hold hb]
    · intro j
      show ((s.vcpu_mask_req.set _ _).getD _ 0).testBit j = _
      rw [getD_set_self _ _ _ (by omega), or_bit_uchar _ _ hold hb, Nat.testBit_lor,
        Nat.one_shiftLeft, Nat.testBit_two_pow]
      congr 1
      simp [eq_comm]
    · intro k hk
      exact List.getElem?_set_ne (Ne.symm hk)
    · exact List.length_set _ _ _
  · refine ⟨_, req_clear_in_range s i h0 hi hsz, ?_, ?_, ?_, ?_, rfl, rfl, rfl, rfl, rfl⟩
    · rw [read_req_after_set s _ _ hlt hlen, and_not_bit_uchar _ _ hold]
    · intro j
      show ((s.vcpu_mask_req.set _ _).getD _ 0).testBit j = _
      rw [getD_set_self _ _ _ (by omega), testBit_and_not_bit]
      by_cases h8 : j < 8
      · simp [h8, eq_comm]
      · rw [testBit_lt_256 _ j hold (by omega)]
        simp
    · intro k hk
      exact List.getElem?_set_ne (Ne.symm hk)
    · exact List.length_set _ _ _

theorem C9_req_set_clear_frame_witness :
    wf sample ∧ (0 : Int) ≤ 13 ∧ (13 : Int) / 8 < (sample.mask_sz : Int) ∧
    ((∃ t, vcpu_hp_req_set (some sample) 13 = some t ∧
      vcpu_hp_read t (8 + ((13 : Int) / 8).toNat) 1 =
        .ret t (sample.vcpu_mask_req.getD ((13 : Int) / 8).toNat 0
          ||| (1 <<< ((13 : Int) % 8).toNat)) ∧
      (∀ j, (t.vcpu_mask_req.getD ((13 : Int) / 8).toNat 0).testBit j =
        ((sample.vcpu_mask_req.getD ((13 : Int) / 8).toNat 0).testBit j
          || decide (j = ((13 : Int) % 8).toNat))) ∧
      (∀ k, k ≠ ((13 : Int) / 8).toNat → t.vcpu_mask_req[k]? = sample.vcpu_mask_req[k]?) ∧
      t.vcpu_mask_req.length = sample.vcpu_mask_req.length ∧
      t.vcpu_mask_resp = sample.vcpu_mask_resp ∧ t.ctrl = sample.ctrl ∧
      t.irq = sample.irq ∧
      t.mask_sz = sample.mask_sz ∧ t.hp_requests = sample.hp_requests) ∧
    (∃ u, vcpu_hp_req_clear (some sample) 13 = some u ∧
      vcpu_hp_read u (8 + ((13 : Int) / 8).toNat) 1 =
        .ret u (sample.vcpu_mask_req.getD ((13 : Int) / 8).toNat 0
          &&& int_not (1 <<< ((13 : Int) % 8).toNat)) ∧
      (∀ j, (u.vcpu_mask_req.getD ((13 : Int) / 8).toNat 0).testBit j =
        ((sample.vcpu_mask_req.getD ((13 : Int) / 8).toNat 0).testBit j
          && !decide (j = ((13 : Int) % 8).toNat))) ∧
      (∀ k, k ≠ ((13 : Int) / 8).toNat → u.vcpu_mask_req[k]? = sample.vcpu_mask_req[k]?) ∧
      u.vcpu_mask_req.length = sample.vcpu_mask_req.length ∧
      u.vcpu_mask_resp = sample.vcpu_mask_resp ∧ u.ctrl = sample.ctrl ∧
      u.irq = sample.irq ∧
      u.mask_sz = sample.mask_sz ∧ u.hp_requests = sample.hp_requests)) :=
  ⟨by decide, by decide, by decide,
    C9_req_set_clear_frame sample (by decide) 13 (by decide) (by decide)⟩

/-! ## Set followed by clear -/

theorem byte_set_clear (x b : Nat) :
    to_uchar (to_uchar (x ||| (1 <<< b)) &&& int_not (1 <<< b))
      = to_uchar (x &&& int_not (1 <<< b)) := by
  apply Nat.eq_of_testBit_eq
  intro j
  rw [testBit_and_not_bit, testBit_and_not_bit, testBit_or_bit]
  by_cases h8 : j < 8 <;> by_cases hbj : b = j <;> simp [h8, hbj]

theorem set_getD_self (l : List Nat) (k : Nat) (hk : k < l.length) :
    l.set k (l.getD k 0) = l := by
  apply List.ext_getElem?
  intro n
  rw [List.getElem?_set]
  by_cases hn : k = n
  · subst hn
    simp [hk, List.getD_eq_getElem?_getD]
  · simp [hn]

theorem and_not_bit_eq_self_iff (x b : Nat) (hx : x < 256) :
    to_uchar (x &&& int_not (1 <<< b)) = x ↔ x.testBit b = false := by
  constructor
  · intro h
    have hb := testBit_and_not_bit x b b
    rw [h] at hb
    cases hxb : x.testBit b
    · rfl
    · rw [hxb] at hb; simp at hb
  · intro h
    apply Nat.eq_of_testBit_eq
    intro j
    rw [testBit_and_not_bit]
    by_cases h8 : j < 8
    · by_cases hbj : b = j
      · subst hbj; simp [h]
      · simp [h8, hbj]
    · rw [testBit_lt_256 x j hx (by omega)]; simp

/-- C8, as stated, fails: on a one-byte device in its reset state (request
mask `[0x01]`, bit 0 set) `vcpu_hp_req_set(0)` followed by
`vcpu_hp_req_clear(0)` leaves the request mask `[0x00]`: the bit that was set
before the pair is clear after it. -/
theorem C8_counterexample :
    wf sample_reset ∧
    sample_reset.vcpu_mask_req = [0x01] ∧
    vcpu_hp_req_clear (vcpu_hp_req_set (some sample_reset) 0) 0 =
      some { sample_reset with vcpu_mask_req := [0x00] } ∧
    vcpu_hp_req_clear (vcpu_hp_req_set (some sample_reset) 0) 0 ≠ some sample_reset := by
  decide

/-- C8, amended: for every state and every cpu index `i` with
`0 <= i < 8 * mask_sz` (a range that contains `[0, max_vcpus)`),
`vcpu_hp_req_set(i)` followed by `vcpu_hp_req_clear(i)` acts as
`vcpu_hp_req_clear(i)` alone: bit `i%8` of request-mask byte `i/8` is 0
afterwards and every other bit of the state is as before. The request mask
after the pair equals the request mask before it exactly when that bit was 0
before the pair. -/
theorem C8_set_then_clear (s : vcpu_hp_state) (hwf : wf s) (i : Int) (h0 : 0 ≤ i)
    (hi : i < 8 * (s.mask_sz : Int)) :
    ∃ t, vcpu_hp_req_clear (vcpu_hp_req_set (some s) i) i = some t ∧
      vcpu_hp_req_clear (some s) i = some t ∧
      (∀ j, (t.vcpu_mask_req.getD (i / 8).toNat 0).testBit j =
        ((s.vcpu_mask_req.getD (i / 8).toNat 0).testBit j && !decide (j = (i % 8).toNat))) ∧
      (∀ k, k ≠ (i / 8).toNat → t.vcpu_mask_req[k]? = s.vcpu_mask_req[k]?) ∧
      t.vcpu_mask_req.length = s.vcpu_mask_req.length ∧
      t.vcpu_mask_resp = s.vcpu_mask_resp ∧ t.ctrl = s.ctrl ∧ t.irq = s.irq ∧
      t.mask_sz = s.mask_sz ∧ t.hp_requests = s.hp_requests ∧
      (t.vcpu_mask_req = s.vcpu_mask_req ↔
        (s.vcpu_mask_req.getD (i / 8).toNat 0).testBit (i % 8).toNat = false) := by
  obtain ⟨hlen, -, hbytes, -, -, hsz⟩ := hwf
  have hi8 : i / 8 < (s.mask_sz : Int) := by omega
  have hlt : (i / 8).toNat < s.vcpu_mask_req.length := by omega
  have hold : s.vcpu_mask_req.getD (i / 8).toNat 0 < 256 := getD_lt_256 _ _ hbytes
  have hpair : vcpu_hp_req_clear (vcpu_hp_req_set (some s) i) i =
      vcpu_hp_req_clear (some s) i := by
    have hmid := req_clear_in_range
      { s with
        vcpu_mask_req := s.vcpu_mask_req.set (i / 8).toNat
          (to_uchar (s.vcpu_mask_req.getD (i / 8).toNat 0 ||| (1 <<< (i % 8).toNat))) }
      i h0 hi8 hsz
    rw [req_set_in_range s i h0 hi8 hsz, hmid, req_clear_in_range s i h0 hi8 hsz]
    simp only [getD_set_self _ _ _ hlt, List.set_set, byte_set_clear]
  rw [hpair]
  refine ⟨_, req_clear_in_range s i h0 hi8 hsz, req_clear_in_range s i h0 hi8 hsz,
    ?_, ?_, ?_, rfl, rfl, rfl, rfl, rfl, ?_⟩
  · intro j
    show ((s.vcpu_mask_req.set _ _).getD _ 0).testBit j = _
    rw [getD_set_self _ _ _ hlt, testBit_and_not_bit]
    by_cases h8 : j < 8
    · simp [h8, eq_comm]
    · rw [testBit_lt_256 _ j hold (by omega)]
      simp
  · intro k hk
    exact List.getElem?_set_ne (Ne.symm hk)
  · exact List.length_set _ _ _
  · show s.vcpu_mask_req.set _ _ = s.vcpu_mask_req ↔ _
    rw [← and_not_bit_eq_self_iff _ (i % 8).toNat hold]
    constructor
    · intro h
      have := congrArg (fun l => List.getD l (i / 8).toNat 0) h
      simpa only [getD_set_self _ _ _ hlt] using this
    · intro h
      rw [h]
      exact set_getD_self _ _ hlt

theorem C8_set_then_clear_witness :
    wf sample ∧ (0 : Int) ≤ 13 ∧ (13 : Int) < 8 * (sample.mask_sz : Int) ∧
    ∃ t, vcpu_hp_req_clear (vcpu_hp_req_set (some sample) 13) 13 = some t ∧
      vcpu_hp_req_clear (some sample) 13 = some t ∧
      (∀ j, (t.vcpu_mask_req.getD ((13 : Int) / 8).toNat 0).testBit j =
        ((sample.vcpu_mask_req.getD ((13 : Int) / 8).toNat 0).testBit j
          && !decide (j = ((13 : Int) % 8).toNat))) ∧
      (∀ k, k ≠ ((13 : Int) / 8).toNat → t.vcpu_mask_req[k]? = sample.vcpu_mask_req[k]?) ∧
      t.vcpu_mask_req.length = sample.vcpu_mask_req.length ∧
      t.vcpu_mask_resp = sample.vcpu_mask_resp ∧ t.ctrl = sample.ctrl ∧
      t.irq = sample.irq ∧
      t.mask_sz = sample.mask_sz ∧ t.hp_requests = sample.hp_requests ∧
      (t.vcpu_mask_req = sample.vcpu_mask_req ↔
        (sample.vcpu_mask_req.getD ((13 : Int) / 8).toNat 0).testBit
          ((13 : Int) % 8).toNat = false) :=
  ⟨by decide, by decide, by decide,
    C8_set_then_clear sample (by decide) 13 (by decide) (by decide)⟩

/-! ## Guest writes of the response mask -/

/-- C10: for every state, every `k < mask_sz` and every written value `v`, a
1-byte guest write of `v` at offset `8 + mask_sz + k` followed by a guest read
at the same offset returns `v mod 256`; the write changes only
`response_mask[k]` and leaves every other response-mask byte, the request
mask, the control byte and the interrupt line unchanged. -/
theorem C10_resp_write_read (s : vcpu_hp_state) (hwf : wf s) (k v : Nat)
    (hk : k < s.mask_sz) :
    ∃ t, vcpu_hp_write s (8 + s.mask_sz + k) v 1 = .ret t () ∧
      vcpu_hp_read t (8 + s.mask_sz + k) 1 = .ret t (v % 256) ∧
      t.vcpu_mask_resp[k]? = some (v % 256) ∧
      (∀ j, j ≠ k → t.vcpu_mask_resp[j]? = s.vcpu_mask_resp[j]?) ∧
      t.vcpu_mask_resp.length = s.vcpu_mask_resp.length ∧
      t.vcpu_mask_req = s.vcpu_mask_req ∧ t.ctrl = s.ctrl ∧ t.irq = s.irq ∧
      t.mask_sz = s.mask_sz ∧ t.hp_requests = s.hp_requests := by
  obtain ⟨-, hlen, -⟩ := hwf
  have hkl : k < s.vcpu_mask_resp.length := by omega
  have h8 : ¬ 8 + s.mask_sz + k < 8 := by omega
  have e : 8 + s.mask_sz + k - 8 = s.mask_sz + k := by omega
  have hreq : ¬ s.mask_sz + k < s.mask_sz := by omega
  have hresp : s.mask_sz + k < s.mask_sz * 2 := by omega
  have hw : vcpu_hp_write s (8 + s.mask_sz + k) v 1 =
      .ret { s with vcpu_mask_resp := s.vcpu_mask_resp.set k (to_uchar v) } () := by
    simp [vcpu_hp_write, VCPU_HP_HEADER_N, h8, e, hreq, hresp]
  refine ⟨_, hw, ?_, ?_, ?_, ?_, rfl, rfl, rfl, rfl, rfl⟩
  · have h := read_resp_byte
      { s with vcpu_mask_resp := s.vcpu_mask_resp.set k (to_uchar v) } k hk
    rw [h]
    show Outcome.ret _ ((s.vcpu_mask_resp.set k (to_uchar v)).getD k 0) = _
    rw [getD_set_self _ _ _ hkl]
    rfl
  · exact List.getElem?_set_self hkl
  · intro j hj
    exact List.getElem?_set_ne (Ne.symm hj)
  · exact List.length_set _ _ _

theorem C10_resp_write_read_witness :
    wf sample ∧ 1 < sample.mask_sz ∧
    ∃ t, vcpu_hp_write sample (8 + sample.mask_sz + 1) 0x1FF 1 = .ret t () ∧
      vcpu_hp_read t (8 + sample.mask_sz + 1) 1 = .ret t (0x1FF % 256) ∧
      t.vcpu_mask_resp[1]? = some (0x1FF % 256) ∧
      (∀ j, j ≠ 1 → t.vcpu_mask_resp[j]? = sample.vcpu_mask_resp[j]?) ∧
      t.vcpu_mask_resp.length = sample.vcpu_mask_resp.length ∧
      t.vcpu_mask_req = sample.vcpu_mask_req ∧ t.ctrl = sample.ctrl ∧
      t.irq = sample.irq ∧
      t.mask_sz = sample.mask_sz ∧ t.hp_requests = sample.hp_requests :=
  ⟨by decide, by decide, C10_resp_write_read sample (by decide) 1 0x1FF (by decide)⟩

/-! ## The host query `vcpu_hp_resp_is_set` -/

theorem resp_is_set_in_range (s : vcpu_hp_state) (i : Int) (h0 : 0 ≤ i)
    (hi : i / 8 < (s.mask_sz : Int)) (hsz : s.mask_sz * 2 < 2 ^ 31) :
    vcpu_hp_resp_is_set (some s) i =
      ((s.vcpu_mask_req.getD (i / 8).toNat 0).testBit (i % 8).toNat).toNat := by
  have hlt : (i / 8).toNat < s.mask_sz := by omega
  have hne : ¬ ((if (i / 8).toNat < s.mask_sz then 1 else 0 : Nat) = 0) := by simp [hlt]
  unfold vcpu_hp_resp_is_set vcpu_hp_get_state
  simp only []
  rw [get_mask_offset_nonneg s i h0 (by omega)]
  simp only [hne, if_false]
  exact get_creg_eq _ _

/-- C11: for every state and every cpu index `i` with `0 <= i` and
`i/8 < mask_sz`, `vcpu_hp_resp_is_set(i)` returns 1 exactly when bit `i%8` of
request-mask byte `i/8` is set (and 0 otherwise): it queries the request mask
rather than the response mask, so two states that differ only in their
response masks give the same result, and after `vcpu_hp_req_set(i)` it returns
1 whatever the response mask holds. -/
theorem C11_resp_is_set_reads_request_mask (s : vcpu_hp_state) (hwf : wf s) (i : Int)
    (h0 : 0 ≤ i) (hi : i / 8 < (s.mask_sz : Int)) :
    (vcpu_hp_resp_is_set (some s) i = 1 ↔
      (s.vcpu_mask_req.getD (i / 8).toNat 0).testBit (i % 8).toNat = true) ∧
    (vcpu_hp_resp_is_set (some s) i = 0 ↔
      (s.vcpu_mask_req.getD (i / 8).toNat 0).testBit (i % 8).toNat = false) ∧
    (∀ resp, vcpu_hp_resp_is_set (some { s with vcpu_mask_resp := resp }) i =
      vcpu_hp_resp_is_set (some s) i) ∧
    (∀ resp, ∃ t, vcpu_hp_req_set (some s) i = some t ∧
      vcpu_hp_resp_is_set (some { t with vcpu_mask_resp := resp }) i = 1) := by
  obtain ⟨hlen, -, -, -, -, hsz⟩ := hwf
  have hlt : (i / 8).toNat < s.vcpu_mask_req.length := by omega
  have hb : (i % 8).toNat < 8 := by
    have := Int.emod_lt_of_pos i (show (0 : Int) < 8 by decide)
    have := Int.emod_nonneg i (show (8 : Int) ≠ 0 by decide)
    omega
  refine ⟨?_, ?_, ?_, ?_⟩
  · rw [resp_is_set_in_range s i h0 hi hsz]
    cases (s.vcpu_mask_req.getD (i / 8).toNat 0).testBit (i % 8).toNat <;> simp
  · rw [resp_is_set_in_range s i h0 hi hsz]
    cases (s.vcpu_mask_req.getD (i / 8).toNat 0).testBit (i % 8).toNat <;> simp
  · intro resp
    rw [resp_is_set_in_range s i h0 hi hsz]
    exact resp_is_set_in_range { s with vcpu_mask_resp := resp } i h0 hi hsz
  · intro resp
    refine ⟨_, req_set_in_range s i h0 hi hsz, ?_⟩
    have h := resp_is_set_in_range
      { s with
        vcpu_mask_req := s.vcpu_mask_req.set (i / 8).toNat
          (to_uchar (s.vcpu_mask_req.getD (i / 8).toNat 0 ||| (1 <<< (i % 8).toNat))),
        vcpu_mask_resp := resp } i h0 hi hsz
    rw [h]
    show (((s.vcpu_mask_req.set _ _).getD _ 0).testBit _).toNat = 1
    rw [getD_set_self _ _ _ hlt, testBit_or_bit]
    simp [hb]

theorem C11_resp_is_set_reads_request_mask_witness :
    wf sample ∧ (0 : Int) ≤ 13 ∧ (13 : Int) / 8 < (sample.mask_sz : Int) ∧
    ((vcpu_hp_resp_is_set (some sample) 13 = 1 ↔
      (sample.vcpu_mask_req.getD ((13 : Int) / 8).toNat 0).testBit
        ((13 : Int) % 8).toNat = true) ∧
    (vcpu_hp_resp_is_set (some sample) 13 = 0 ↔
      (sample.vcpu_mask_req.getD ((13 : Int) / 8).toNat 0).testBit
        ((13 : Int) % 8).toNat = false) ∧
    (∀ resp, vcpu_hp_resp_is_set (some { sample with vcpu_mask_resp := resp }) 13 =
      vcpu_hp_resp_is_set (some sample) 13) ∧
    (∀ resp, ∃ t, vcpu_hp_req_set (some sample) 13 = some t ∧
      vcpu_hp_resp_is_set (some { t with vcpu_mask_resp := resp }) 13 = 1)) :=
  ⟨by decide, by decide, by decide,
    C11_resp_is_set_reads_request_mask sample (by decide) 13 (by decide) (by decide)⟩

/-! ## Indices outside the mask -/

/-- C13: for every state and every zero-based index `i` (an `int`) with
`i/8 >= mask_sz`, `vcpu_hp_req_set(i)` and `vcpu_hp_req_clear(i)` are no-ops
that leave the whole state unchanged and `vcpu_hp_resp_is_set(i)` returns 0;
none of them faults: each returns without touching a mask byte. -/
theorem C13_out_of_range_noop (s : vcpu_hp_state) (i : Int) (h0 : 0 ≤ i)
    (h31 : i < 2 ^ 31) (hi : (s.mask_sz : Int) ≤ i / 8) :
    vcpu_hp_req_set (some s) i = some s ∧
    vcpu_hp_req_clear (some s) i = some s ∧
    vcpu_hp_resp_is_set (some s) i = 0 := by
  have hge : ¬ (i / 8).toNat < s.mask_sz := by omega
  have hoff := get_mask_offset_nonneg s i h0 (by omega)
  simp only [hge, if_false] at hoff
  refine ⟨?_, ?_, ?_⟩
  · unfold vcpu_hp_req_set vcpu_hp_get_state
    simp only []
    rw [hoff]
    simp
  · unfold vcpu_hp_req_clear vcpu_hp_get_state
    simp only []
    rw [hoff]
    simp
  · unfold vcpu_hp_resp_is_set vcpu_hp_get_state
    simp only []
    rw [hoff]
    simp

theorem C13_out_of_range_noop_witness :
    (0 : Int) ≤ 16 ∧ (16 : Int) < 2 ^ 31 ∧ (sample.mask_sz : Int) ≤ (16 : Int) / 8 ∧
    (vcpu_hp_req_set (some sample) 16 = some sample ∧
    vcpu_hp_req_clear (some sample) 16 = some sample ∧
    vcpu_hp_resp_is_set (some sample) 16 = 0) :=
  ⟨by decide, by decide, by decide,
    C13_out_of_range_noop sample 16 (by decide) (by decide) (by decide)⟩

/-! ## The mask size computed at construction -/

theorem init_mask_sz_bounds (max_cpus : Int) (h0 : 0 ≤ max_cpus) :
    max_cpus ≤ 8 * vcpu_hp_init_mask_sz max_cpus ∧
    8 * (vcpu_hp_init_mask_sz max_cpus - 1) < max_cpus := by
  unfold vcpu_hp_init_mask_sz BITS_PER_BYTE
  rw [Int.tdiv_eq_ediv h0 (by decide), Int.tmod_eq_emod h0 (by decide)]
  split_ifs <;> omega

/-- C12: for every `max_cpus >= 1` (an `int`), the mask size computed at
construction, `max_cpus / 8 + (max_cpus % 8 ? 1 : 0)`, equals
`ceil(max_cpus / 8)`, is at least 1, and satisfies `8*mask_sz >= max_cpus`, so
that every cpu index in `[0, max_cpus)` passes the range check of
`vcpu_hp_get_mask_offset` on the constructed device. -/
theorem C12_init_mask_sz (max_cpus : Int) (h1 : 1 ≤ max_cpus) (h31 : max_cpus < 2 ^ 31) :
    vcpu_hp_init_mask_sz max_cpus = Int.ceil ((max_cpus : ℚ) / 8) ∧
    1 ≤ vcpu_hp_init_mask_sz max_cpus ∧
    max_cpus ≤ 8 * vcpu_hp_init_mask_sz max_cpus ∧
    ∀ junk_req junk_resp : Nat → Nat,
      ((vcpu_hp_init max_cpus junk_req junk_resp).mask_sz : Int)
        = vcpu_hp_init_mask_sz max_cpus ∧
      ∀ i : Int, 0 ≤ i → i < max_cpus →
        (vcpu_hp_get_mask_offset (vcpu_hp_init max_cpus junk_req junk_resp) i).1 = 1 := by
  obtain ⟨hup, hlo⟩ := init_mask_sz_bounds max_cpus (by omega)
  have hpos : 1 ≤ vcpu_hp_init_mask_sz max_cpus := by omega
  refine ⟨?_, hpos, hup, ?_⟩
  · symm
    rw [Int.ceil_eq_iff]
    constructor
    · rw [lt_div_iff₀ (by norm_num : (0 : ℚ) < 8)]
      have : ((vcpu_hp_init_mask_sz max_cpus - 1) * 8 : Int) < max_cpus := by omega
      exact_mod_cast this
    · rw [div_le_iff₀ (by norm_num : (0 : ℚ) < 8)]
      have : max_cpus ≤ vcpu_hp_init_mask_sz max_cpus * 8 := by omega
      exact_mod_cast this
  · intro junk_req junk_resp
    have hsz : ((vcpu_hp_init max_cpus junk_req junk_resp).mask_sz : Int)
        = vcpu_hp_init_mask_sz max_cpus := by
      show (((vcpu_hp_init_mask_sz max_cpus).toNat : Nat) : Int) = _
      exact Int.toNat_of_nonneg (by omega)
    refine ⟨hsz, ?_⟩
    intro i hi0 hi
    rw [get_mask_offset_nonneg _ i hi0 (by omega)]
    have : (i / 8).toNat < (vcpu_hp_init max_cpus junk_req junk_resp).mask_sz := by omega
    simp [this]

theorem C12_init_mask_sz_witness :
    (1 : Int) ≤ 13 ∧ (13 : Int) < 2 ^ 31 ∧
    (vcpu_hp_init_mask_sz 13 = Int.ceil (((13 : Int) : ℚ) / 8) ∧
    1 ≤ vcpu_hp_init_mask_sz 13 ∧
    (13 : Int) ≤ 8 * vcpu_hp_init_mask_sz 13 ∧
    ∀ junk_req junk_resp : Nat → Nat,
      ((vcpu_hp_init 13 junk_req junk_resp).mask_sz : Int) = vcpu_hp_init_mask_sz 13 ∧
      ∀ i : Int, 0 ≤ i → i < 13 →
        (vcpu_hp_get_mask_offset (vcpu_hp_init 13 junk_req junk_resp) i).1 = 1) :=
  ⟨by decide, by decide, C12_init_mask_sz 13 (by decide) (by decide)⟩

/-! ## The control byte state machine -/

theorem write_ctrl_keep_keep (s : vcpu_hp_state) (v : Nat)
    (hI : ¬ (vcpu_hp_get_creg s.ctrl VCPU_HP_CTRL_IPR = 1 ∧ v.testBit 0 = false))
    (hH : ¬ (vcpu_hp_get_creg s.ctrl VCPU_HP_CTRL_HPR = 1 ∧ v.testBit 1 = false)) :
    vcpu_hp_write_ctrl s v = s := by
  have e0 := get_creg_to_uchar v VCPU_HP_CTRL_IPR (by decide)
  have e1 := get_creg_to_uchar v VCPU_HP_CTRL_HPR (by decide)
  rcases get_creg_zero_or_one s.ctrl VCPU_HP_CTRL_IPR with hi | hi <;>
    rcases get_creg_zero_or_one s.ctrl VCPU_HP_CTRL_HPR with hh | hh <;>
    cases hv0 : v.testBit 0 <;> cases hv1 : v.testBit 1 <;>
    simp_all [vcpu_hp_write_ctrl, VCPU_HP_CTRL_IPR, VCPU_HP_CTRL_HPR]

theorem write_ctrl_drop_keep (s : vcpu_hp_state) (v : Nat)
    (hI : vcpu_hp_get_creg s.ctrl VCPU_HP_CTRL_IPR = 1 ∧ v.testBit 0 = false)
    (hH : ¬ (vcpu_hp_get_creg s.ctrl VCPU_HP_CTRL_HPR = 1 ∧ v.testBit 1 = false)) :
    vcpu_hp_write_ctrl s v =
      { s with ctrl := vcpu_hp_clear_creg s.ctrl VCPU_HP_CTRL_IPR, irq := 0 } := by
  have e0 := get_creg_to_uchar v VCPU_HP_CTRL_IPR (by decide)
  have e1 := get_creg_to_uchar v VCPU_HP_CTRL_HPR (by decide)
  have ec := get_creg_clear_other s.ctrl VCPU_HP_CTRL_IPR VCPU_HP_CTRL_HPR (by decide)
    (by decide)
  obtain ⟨hi, hv0⟩ := hI
  rcases get_creg_zero_or_one s.ctrl VCPU_HP_CTRL_HPR with hh | hh <;>
    cases hv1 : v.testBit 1 <;>
    simp_all [vcpu_hp_write_ctrl, VCPU_HP_CTRL_IPR, VCPU_HP_CTRL_HPR, qemu_set_irq]

theorem write_ctrl_keep_drop (s : vcpu_hp_state) (v : Nat)
    (hI : ¬ (vcpu_hp_get_creg s.ctrl VCPU_HP_CTRL_IPR = 1 ∧ v.testBit 0 = false))
    (hH : vcpu_hp_get_creg s.ctrl VCPU_HP_CTRL_HPR = 1 ∧ v.testBit 1 = false) :
    vcpu_hp_write_ctrl s v =
      { s with ctrl := vcpu_hp_clear_creg s.ctrl VCPU_HP_CTRL_HPR,
               hp_requests := s.hp_requests + 1 } := by
  have e0 := get_creg_to_uchar v VCPU_HP_CTRL_IPR (by decide)
  have e1 := get_creg_to_uchar v VCPU_HP_CTRL_HPR (by decide)
  obtain ⟨hh, hv1⟩ := hH
  rcases get_creg_zero_or_one s.ctrl VCPU_HP_CTRL_IPR with hi | hi <;>
    cases hv0 : v.testBit 0 <;>
    simp_all [vcpu_hp_write_ctrl, VCPU_HP_CTRL_IPR, VCPU_HP_CTRL_HPR, qemu_vcpu_hp_request]

theorem write_ctrl_drop_drop (s : vcpu_hp_state) (v : Nat)
    (hI : vcpu_hp_get_creg s.ctrl VCPU_HP_CTRL_IPR = 1 ∧ v.testBit 0 = false)
    (hH : vcpu_hp_get_creg s.ctrl VCPU_HP_CTRL_HPR = 1 ∧ v.testBit 1 = false) :
    vcpu_hp_write_ctrl s v =
      { s with
        ctrl := vcpu_hp_clear_creg (vcpu_hp_clear_creg s.ctrl VCPU_HP_CTRL_IPR)
          VCPU_HP_CTRL_HPR,
        irq := 0, hp_requests := s.hp_requests + 1 } := by
  have e0 := get_creg_to_uchar v VCPU_HP_CTRL_IPR (by decide)
  have e1 := get_creg_to_uchar v VCPU_HP_CTRL_HPR (by decide)
  have ec := get_creg_clear_other s.ctrl VCPU_HP_CTRL_IPR VCPU_HP_CTRL_HPR (by decide)
    (by decide)
  obtain ⟨hi, hv0⟩ := hI
  obtain ⟨hh, hv1⟩ := hH
  simp_all [vcpu_hp_write_ctrl, VCPU_HP_CTRL_IPR, VCPU_HP_CTRL_HPR, qemu_set_irq,
    qemu_vcpu_hp_request]

theorem not_one_and_zero (a : Nat) : ¬ (a = 1 ∧ a = 0) := by omega

theorem testBit_clear_creg_reserved (c r j : Nat) (hr : r < 2) (h2 : 2 ≤ j) (h8 : j < 8) :
    (vcpu_hp_clear_creg c r).testBit j = c.testBit j := by
  rw [testBit_clear_creg]
  have : ¬ (r = j) := by omega
  simp [h8, this]

theorem write_ctrl_same_bits (s : vcpu_hp_state) (v w : Nat)
    (h0 : w.testBit 0 = v.testBit 0) (h1 : w.testBit 1 = v.testBit 1) :
    vcpu_hp_write_ctrl s w = vcpu_hp_write_ctrl s v := by
  have ev0 := get_creg_to_uchar v VCPU_HP_CTRL_IPR (by decide)
  have ev1 := get_creg_to_uchar v VCPU_HP_CTRL_HPR (by decide)
  have ew0 := get_creg_to_uchar w VCPU_HP_CTRL_IPR (by decide)
  have ew1 := get_creg_to_uchar w VCPU_HP_CTRL_HPR (by decide)
  have e0 : vcpu_hp_get_creg (to_uchar w) VCPU_HP_CTRL_IPR
      = vcpu_hp_get_creg (to_uchar v) VCPU_HP_CTRL_IPR := by
    rw [ev0, ew0]; exact congrArg Bool.toNat h0
  have e1 : vcpu_hp_get_creg (to_uchar w) VCPU_HP_CTRL_HPR
      = vcpu_hp_get_creg (to_uchar v) VCPU_HP_CTRL_HPR := by
    rw [ev1, ew1]; exact congrArg Bool.toNat h1
  unfold vcpu_hp_write_ctrl
  simp only [e0, e1]

theorem write_ctrl_effect (s : vcpu_hp_state) (v : Nat) :
    vcpu_hp_get_creg (vcpu_hp_write_ctrl s v).ctrl VCPU_HP_CTRL_IPR =
      (if v.testBit 0 = true then vcpu_hp_get_creg s.ctrl VCPU_HP_CTRL_IPR else 0) ∧
    vcpu_hp_get_creg (vcpu_hp_write_ctrl s v).ctrl VCPU_HP_CTRL_HPR =
      (if v.testBit 1 = true then vcpu_hp_get_creg s.ctrl VCPU_HP_CTRL_HPR else 0) ∧
    (∀ j, 2 ≤ j → j < 8 → (vcpu_hp_write_ctrl s v).ctrl.testBit j = s.ctrl.testBit j) ∧
    (vcpu_hp_write_ctrl s v).irq =
      (if vcpu_hp_get_creg s.ctrl VCPU_HP_CTRL_IPR = 1 ∧
          vcpu_hp_get_creg (vcpu_hp_write_ctrl s v).ctrl VCPU_HP_CTRL_IPR = 0 then 0
        else s.irq) ∧
    (vcpu_hp_write_ctrl s v).hp_requests = s.hp_requests +
      (if vcpu_hp_get_creg s.ctrl VCPU_HP_CTRL_HPR = 1 ∧
          vcpu_hp_get_creg (vcpu_hp_write_ctrl s v).ctrl VCPU_HP_CTRL_HPR = 0 then 1 else 0) ∧
    (vcpu_hp_write_ctrl s v).vcpu_mask_req = s.vcpu_mask_req ∧
    (vcpu_hp_write_ctrl s v).vcpu_mask_resp = s.vcpu_mask_resp ∧
    (vcpu_hp_write_ctrl s v).mask_sz = s.mask_sz ∧
    vcpu_hp_get_creg (vcpu_hp_write_ctrl s v).ctrl VCPU_HP_CTRL_IPR ≤
      vcpu_hp_get_creg s.ctrl VCPU_HP_CTRL_IPR ∧
    vcpu_hp_get_creg (vcpu_hp_write_ctrl s v).ctrl VCPU_HP_CTRL_HPR ≤
      vcpu_hp_get_creg s.ctrl VCPU_HP_CTRL_HPR := by
  have c01 := get_creg_clear_other s.ctrl VCPU_HP_CTRL_IPR VCPU_HP_CTRL_HPR (by decide)
    (by decide)
  have c10 := get_creg_clear_other s.ctrl VCPU_HP_CTRL_HPR VCPU_HP_CTRL_IPR (by decide)
    (by decide)
  have c10b := get_creg_clear_other (vcpu_hp_clear_creg s.ctrl VCPU_HP_CTRL_IPR)
    VCPU_HP_CTRL_HPR VCPU_HP_CTRL_IPR (by decide) (by decide)
  have cI := get_creg_clear_same s.ctrl VCPU_HP_CTRL_IPR
  have cH := get_creg_clear_same s.ctrl VCPU_HP_CTRL_HPR
  have cIH := get_creg_clear_same (vcpu_hp_clear_creg s.ctrl VCPU_HP_CTRL_IPR)
    VCPU_HP_CTRL_HPR
  by_cases hI : vcpu_hp_get_creg s.ctrl VCPU_HP_CTRL_IPR = 1 ∧ v.testBit 0 = false <;>
    by_cases hH : vcpu_hp_get_creg s.ctrl VCPU_HP_CTRL_HPR = 1 ∧ v.testBit 1 = false
  · rw [write_ctrl_drop_drop s v hI hH]
    obtain ⟨hi, hv0⟩ := hI
    obtain ⟨hh, hv1⟩ := hH
    refine ⟨?_, ?_, ?_, ?_, ?_, rfl, rfl, rfl, ?_, ?_⟩
    · simp only [c10b, cI, hv0]; simp
    · simp only [cIH, hv1]; simp
    · intro j h2 h8
      show (vcpu_hp_clear_creg (vcpu_hp_clear_creg s.ctrl VCPU_HP_CTRL_IPR)
        VCPU_HP_CTRL_HPR).testBit j = _
      rw [testBit_clear_creg_reserved _ _ j (by decide) h2 h8,
        testBit_clear_creg_reserved _ _ j (by decide) h2 h8]
    · simp only [c10b, cI, hi]; simp
    · simp only [cIH, hh]; simp
    · simp only [c10b, cI]; omega
    · simp only [cIH]; omega
  · rw [write_ctrl_drop_keep s v hI hH]
    obtain ⟨hi, hv0⟩ := hI
    refine ⟨?_, ?_, ?_, ?_, ?_, rfl, rfl, rfl, ?_, ?_⟩
    · simp only [cI, hv0]; simp
    · simp only [c01]
      rcases get_creg_zero_or_one s.ctrl VCPU_HP_CTRL_HPR with hh | hh
      · simp [hh]
      · cases hv1 : v.testBit 1
        · exact absurd ⟨hh, hv1⟩ hH
        · simp
    · intro j h2 h8
      exact testBit_clear_creg_reserved _ _ j (by decide) h2 h8
    · simp only [cI, hi]; simp
    · simp [c01, not_one_and_zero]
    · simp only [cI]; omega
    · simp only [c01]; omega
  · rw [write_ctrl_keep_drop s v hI hH]
    obtain ⟨hh, hv1⟩ := hH
    refine ⟨?_, ?_, ?_, ?_, ?_, rfl, rfl, rfl, ?_, ?_⟩
    · simp only [c10]
      rcases get_creg_zero_or_one s.ctrl VCPU_HP_CTRL_IPR with hi | hi
      · simp [hi]
      · cases hv0 : v.testBit 0
        · exact absurd ⟨hi, hv0⟩ hI
        · simp
    · simp only [cH, hv1]; simp
    · intro j h2 h8
      exact testBit_clear_creg_reserved _ _ j (by decide) h2 h8
    · simp [c10, not_one_and_zero]
    · simp only [cH, hh]; simp
    · simp only [c10]; omega
    · simp only [cH]; omega
  · rw [write_ctrl_keep_keep s v hI hH]
    refine ⟨?_, ?_, ?_, ?_, ?_, rfl, rfl, rfl, Nat.le_refl _, Nat.le_refl _⟩
    · rcases get_creg_zero_or_one s.ctrl VCPU_HP_CTRL_IPR with hi | hi
      · simp [hi]
      · cases hv0 : v.testBit 0
        · exact absurd ⟨hi, hv0⟩ hI
        · simp
    · rcases get_creg_zero_or_one s.ctrl VCPU_HP_CTRL_HPR with hh | hh
      · simp [hh]
      · cases hv1 : v.testBit 1
        · exact absurd ⟨hh, hv1⟩ hH
        · simp
    · intro j _ _; rfl
    · simp [not_one_and_zero]
    · simp [not_one_and_zero]

/-- C16: for every state and every written value `v`, a guest write of `v` to
offset 1 gives: new IPR = old IPR AND bit 0 of `v`, new HPR = old HPR AND bit 1
of `v`, the reserved bits 2..7 of the control byte unchanged; the interrupt
line is lowered exactly when IPR went from 1 to 0 and is otherwise left at its
level; the completion hook is called once exactly when HPR went from 1 to 0 and
otherwise not at all; both masks are unchanged. Hence the guest can never set
IPR or HPR, and two written values that agree on bits 0 and 1 produce the same
resulting state. -/
theorem C16_write_ctrl_transitions (s : vcpu_hp_state) (v : Nat) :
    ∃ t, vcpu_hp_write s 1 v 1 = .ret t () ∧
      vcpu_hp_get_creg t.ctrl VCPU_HP_CTRL_IPR =
        (if v.testBit 0 = true then vcpu_hp_get_creg s.ctrl VCPU_HP_CTRL_IPR else 0) ∧
      vcpu_hp_get_creg t.ctrl VCPU_HP_CTRL_HPR =
        (if v.testBit 1 = true then vcpu_hp_get_creg s.ctrl VCPU_HP_CTRL_HPR else 0) ∧
      (∀ j, 2 ≤ j → j < 8 → t.ctrl.testBit j = s.ctrl.testBit j) ∧
      t.irq =
        (if vcpu_hp_get_creg s.ctrl VCPU_HP_CTRL_IPR = 1 ∧
            vcpu_hp_get_creg t.ctrl VCPU_HP_CTRL_IPR = 0 then 0 else s.irq) ∧
      t.hp_requests = s.hp_requests +
        (if vcpu_hp_get_creg s.ctrl VCPU_HP_CTRL_HPR = 1 ∧
            vcpu_hp_get_creg t.ctrl VCPU_HP_CTRL_HPR = 0 then 1 else 0) ∧
      t.vcpu_mask_req = s.vcpu_mask_req ∧
      t.vcpu_mask_resp = s.vcpu_mask_resp ∧
      t.mask_sz = s.mask_sz ∧
      vcpu_hp_get_creg t.ctrl VCPU_HP_CTRL_IPR ≤ vcpu_hp_get_creg s.ctrl VCPU_HP_CTRL_IPR ∧
      vcpu_hp_get_creg t.ctrl VCPU_HP_CTRL_HPR ≤ vcpu_hp_get_creg s.ctrl VCPU_HP_CTRL_HPR ∧
      ∀ w, w.testBit 0 = v.testBit 0 → w.testBit 1 = v.testBit 1 →
        vcpu_hp_write s 1 w 1 = vcpu_hp_write s 1 v 1 := by
  have hsame : ∀ w, w.testBit 0 = v.testBit 0 → w.testBit 1 = v.testBit 1 →
      vcpu_hp_write s 1 w 1 = vcpu_hp_write s 1 v 1 := by
    intro w h0 h1
    have hw := write_ctrl_offset s w
    have hv := write_ctrl_offset s v
    simp only [VCPU_HP_HEADER_CTRL] at hw hv
    rw [hw, hv, write_ctrl_same_bits s v w h0 h1]
  have hret := write_ctrl_offset s v
  simp only [VCPU_HP_HEADER_CTRL] at hret
  exact ⟨vcpu_hp_write_ctrl s v, hret,
    (write_ctrl_effect s v).1, (write_ctrl_effect s v).2.1, (write_ctrl_effect s v).2.2.1,
    (write_ctrl_effect s v).2.2.2.1, (write_ctrl_effect s v).2.2.2.2.1,
    (write_ctrl_effect s v).2.2.2.2.2.1, (write_ctrl_effect s v).2.2.2.2.2.2.1,
    (write_ctrl_effect s v).2.2.2.2.2.2.2.1, (write_ctrl_effect s v).2.2.2.2.2.2.2.2.1,
    (write_ctrl_effect s v).2.2.2.2.2.2.2.2.2, hsame⟩

/-! ## The sixteen-CPU scenario -/

theorem init_sixteen (junk_req junk_resp : Nat → Nat) :
    vcpu_hp_init 16 junk_req junk_resp =
      { mask_sz := 2, vcpu_mask_req := [0x01, 0x00], vcpu_mask_resp := [0x00, 0x00],
        ctrl := 0x00, irq := 0, hp_requests := 0 } := by
  have hsz : vcpu_hp_init_mask_sz 16 = 2 := by decide
  simp [vcpu_hp_init, hsz, vcpu_hp_reset, memset, g_malloc, to_uchar, List.range_succ]

/-- C15: with `max_vcpus = 16` the mask size is 2; after reset the request
mask is `[0x01, 0x00]`; after `vcpu_hp_req_set(5)` it is `[0x21, 0x00]`;
`vcpu_hp_req_fire` then returns 1, leaves the control byte equal to `0b11` and
the interrupt line asserted; a guest write of `0b10` to offset 1 leaves the
control byte `0b10` and the interrupt line deasserted with no completion
signal; a further guest write of `0b00` leaves the control byte `0b00` and
signals completion exactly once over the whole trace. -/
theorem C15_scenario (junk_req junk_resp : Nat → Nat) :
    (vcpu_hp_init 16 junk_req junk_resp).mask_sz = 2 ∧
    (vcpu_hp_init 16 junk_req junk_resp).vcpu_mask_req = [0x01, 0x00] ∧
    (vcpu_hp_init 16 junk_req junk_resp).irq = 0 ∧
    (vcpu_hp_init 16 junk_req junk_resp).hp_requests = 0 ∧
    ∃ s1, vcpu_hp_req_set (some (vcpu_hp_init 16 junk_req junk_resp)) 5 = some s1 ∧
      s1.vcpu_mask_req = [0x21, 0x00] ∧
    ∃ s2, vcpu_hp_req_fire (some s1) = (some s2, 1) ∧
      s2.ctrl = 0b11 ∧ s2.irq = 1 ∧ s2.hp_requests = 0 ∧
    ∃ s3, vcpu_hp_write s2 1 0b10 1 = .ret s3 () ∧
      s3.ctrl = 0b10 ∧ s3.irq = 0 ∧ s3.hp_requests = 0 ∧
    ∃ s4, vcpu_hp_write s3 1 0b00 1 = .ret s4 () ∧
      s4.ctrl = 0b00 ∧ s4.irq = 0 ∧ s4.hp_requests = 1 ∧
      s4.vcpu_mask_req = [0x21, 0x00] := by
  rw [init_sixteen]
  refine ⟨rfl, rfl, rfl, rfl,
    { mask_sz := 2, vcpu_mask_req := [0x21, 0x00], vcpu_mask_resp := [0x00, 0x00],
      ctrl := 0x00, irq := 0, hp_requests := 0 }, by decide, rfl,
    { mask_sz := 2, vcpu_mask_req := [0x21, 0x00], vcpu_mask_resp := [0x00, 0x00],
      ctrl := 0x03, irq := 1, hp_requests := 0 }, by decide, rfl, rfl, rfl,
    { mask_sz := 2, vcpu_mask_req := [0x21, 0x00], vcpu_mask_resp := [0x00, 0x00],
      ctrl := 0x02, irq := 0, hp_requests := 0 }, by decide, rfl, rfl, rfl,
    { mask_sz := 2, vcpu_mask_req := [0x21, 0x00], vcpu_mask_resp := [0x00, 0x00],
      ctrl := 0x00, irq := 0, hp_requests := 1 }, by decide, rfl, rfl, rfl, rfl⟩

/-! ## Runs of operations -/

theorem req_set_frame (s : vcpu_hp_state) (i : Int) :
    ∃ req, vcpu_hp_req_set (some s) i = some { s with vcpu_mask_req := req } := by
  unfold vcpu_hp_req_set vcpu_hp_get_state
  simp only []
  split
  · exact ⟨s.vcpu_mask_req, rfl⟩
  · exact ⟨_, rfl⟩

theorem req_clear_frame (s : vcpu_hp_state) (i : Int) :
    ∃ req, vcpu_hp_req_clear (some s) i = some { s with vcpu_mask_req := req } := by
  unfold vcpu_hp_req_clear vcpu_hp_get_state
  simp only []
  split
  · exact ⟨s.vcpu_mask_req, rfl⟩
  · exact ⟨_, rfl⟩

theorem read_state (s : vcpu_hp_state) (o : Nat) : (step s (.read o)).state = s := by
  unfold step vcpu_hp_read
  simp only []
  split_ifs <;> rfl

theorem write_cases (s : vcpu_hp_state) (o v : Nat) :
    vcpu_hp_write s o v 1 = .ret (vcpu_hp_write_ctrl s v) () ∨
    (∃ resp, vcpu_hp_write s o v 1 = .ret { s with vcpu_mask_resp := resp } ()) ∨
    (∃ site, vcpu_hp_write s o v 1 = .hw_error s site) := by
  unfold vcpu_hp_write vcpu_hp_write_header
  simp only []
  split_ifs
  · exact absurd rfl ‹¬ (1 = 1)›
  · exact Or.inr (Or.inr ⟨_, rfl⟩)
  · exact Or.inl rfl
  · exact Or.inr (Or.inr ⟨_, rfl⟩)
  · exact Or.inr (Or.inr ⟨_, rfl⟩)
  · exact Or.inr (Or.inl ⟨_, rfl⟩)
  · exact Or.inr (Or.inr ⟨_, rfl⟩)

theorem step_cases (s : vcpu_hp_state) (op : Op) :
    ((step s op).state.ctrl = s.ctrl ∧ (step s op).state.irq = s.irq ∧
      (step s op).state.hp_requests = s.hp_requests ∧
      fire_ok s op = 0 ∧ hpr_drop s op = 0) ∨
    (vcpu_hp_get_creg s.ctrl VCPU_HP_CTRL_HPR = 0 ∧
      (step s op).state.ctrl =
        vcpu_hp_set_creg (vcpu_hp_set_creg s.ctrl VCPU_HP_CTRL_HPR) VCPU_HP_CTRL_IPR ∧
      (step s op).state.irq = 1 ∧
      (step s op).state.hp_requests = s.hp_requests ∧
      fire_ok s op = 1 ∧ hpr_drop s op = 0) ∨
    ((step s op).state.ctrl = 0 ∧ (step s op).state.irq = s.irq ∧
      (step s op).state.hp_requests = s.hp_requests ∧
      fire_ok s op = 0 ∧ hpr_drop s op = 0) ∨
    (∃ v, (step s op).state = vcpu_hp_write_ctrl s v ∧ fire_ok s op = 0 ∧
      hpr_drop s op =
        (if vcpu_hp_get_creg s.ctrl VCPU_HP_CTRL_HPR = 1 ∧
            vcpu_hp_get_creg (vcpu_hp_write_ctrl s v).ctrl VCPU_HP_CTRL_HPR = 0 then 1
          else 0)) := by
  cases op with
  | req_set i =>
    obtain ⟨req, h⟩ := req_set_frame s i
    left
    simp [step, h, Outcome.state, fire_ok, hpr_drop]
  | req_clear i =>
    obtain ⟨req, h⟩ := req_clear_frame s i
    left
    simp [step, h, Outcome.state, fire_ok, hpr_drop]
  | req_fire =>
    rcases get_creg_zero_or_one s.ctrl VCPU_HP_CTRL_HPR with h0 | h1
    · right; left
      have h := fire_of_not_pending s h0
      simp [step, h, Outcome.state, fire_ok, hpr_drop, h0]
    · left
      have h := fire_of_pending s h1
      simp [step, h, Outcome.state, fire_ok, hpr_drop]
  | reset =>
    right; right; left
    exact ⟨rfl, rfl, rfl, rfl, rfl⟩
  | read o =>
    left
    rw [read_state s o]
    exact ⟨rfl, rfl, rfl, rfl, rfl⟩
  | write o v =>
    rcases write_cases s o v with h | ⟨resp, h⟩ | ⟨site, h⟩
    · right; right; right
      refine ⟨v, ?_, rfl, ?_⟩
      · simp only [step, h, Outcome.state]
      · simp only [hpr_drop, h, Outcome.state]
    · left
      simp [step, hpr_drop, h, Outcome.state, fire_ok, not_one_and_zero]
    · left
      simp [step, hpr_drop, h, Outcome.state, fire_ok, not_one_and_zero]

theorem run_cons (s : vcpu_hp_state) (op : Op) (ops : List Op) :
    (∃ t, step s op = .ret t () ∧ (step s op).state = t ∧
      run s (op :: ops) = run t ops ∧
      ∀ f, count_along f s (op :: ops) = f s op + count_along f t ops) ∨
    (run s (op :: ops) = (step s op).state ∧
      ∀ f, count_along f s (op :: ops) = f s op) := by
  cases h : step s op with
  | ret t u =>
    left
    refine ⟨t, rfl, rfl, ?_, ?_⟩
    · simp only [run, h]
    · intro f; simp only [count_along, h]
  | hw_error t site =>
    right
    refine ⟨?_, ?_⟩
    · simp only [run, h, Outcome.state]
    · intro f; simp only [count_along, h, Nat.add_zero]
  | assert_fail t =>
    right
    refine ⟨?_, ?_⟩
    · simp only [run, h, Outcome.state]
    · intro f; simp only [count_along, h, Nat.add_zero]

theorem run_invariant (P : vcpu_hp_state → Prop)
    (hstep : ∀ s op, P s → P (step s op).state) :
    ∀ (ops : List Op) (s : vcpu_hp_state), P s → P (run s ops) := by
  intro ops
  induction ops with
  | nil => intro s hs; exact hs
  | cons op ops ih =>
    intro s hs
    rcases run_cons s op ops with ⟨t, -, ht, hrun, -⟩ | ⟨hrun, -⟩
    · rw [hrun]
      exact ih t (ht ▸ hstep s op hs)
    · rw [hrun]
      exact hstep s op hs

/-! ## Reserved bits of the control byte -/

theorem set_creg_lt_four (c r : Nat) (hc : c < 4) (hr : r < 2) :
    vcpu_hp_set_creg c r < 4 := by
  unfold vcpu_hp_set_creg to_uchar
  have h1 : (1 : Nat) <<< r < 2 ^ 2 := by
    rw [Nat.one_shiftLeft]
    exact Nat.pow_lt_pow_right (by decide) hr
  have h2 : c ||| (1 <<< r) < 2 ^ 2 := Nat.or_lt_two_pow (by simpa using hc) h1
  exact Nat.lt_of_le_of_lt (Nat.mod_le _ _) (by simpa using h2)

theorem clear_creg_le (c r : Nat) : vcpu_hp_clear_creg c r ≤ c := by
  unfold vcpu_hp_clear_creg to_uchar
  exact Nat.le_trans (Nat.mod_le _ _) Nat.and_le_left

theorem write_ctrl_ctrl_le (s : vcpu_hp_state) (v : Nat) :
    (vcpu_hp_write_ctrl s v).ctrl ≤ s.ctrl := by
  by_cases hI : vcpu_hp_get_creg s.ctrl VCPU_HP_CTRL_IPR = 1 ∧ v.testBit 0 = false <;>
    by_cases hH : vcpu_hp_get_creg s.ctrl VCPU_HP_CTRL_HPR = 1 ∧ v.testBit 1 = false
  · rw [write_ctrl_drop_drop s v hI hH]
    exact Nat.le_trans (clear_creg_le _ _) (clear_creg_le _ _)
  · rw [write_ctrl_drop_keep s v hI hH]
    exact clear_creg_le _ _
  · rw [write_ctrl_keep_drop s v hI hH]
    exact clear_creg_le _ _
  · rw [write_ctrl_keep_keep s v hI hH]

theorem step_ctrl_lt_four (s : vcpu_hp_state) (op : Op) (h : s.ctrl < 4) :
    (step s op).state.ctrl < 4 := by
  rcases step_cases s op with ⟨hc, -⟩ | ⟨-, hc, -⟩ | ⟨hc, -⟩ | ⟨v, hv, -⟩
  · rw [hc]; exact h
  · rw [hc]
    exact set_creg_lt_four _ _ (set_creg_lt_four _ _ h (by decide)) (by decide)
  · rw [hc]; decide
  · rw [hv]
    exact Nat.lt_of_le_of_lt (write_ctrl_ctrl_le s v) h

theorem testBit_lt_four (c j : Nat) (hc : c < 4) (hj : 2 ≤ j) : c.testBit j = false := by
  apply Nat.testBit_lt_two_pow
  calc c < 2 ^ 2 := by simpa using hc
    _ ≤ 2 ^ j := Nat.pow_le_pow_right (by decide) hj

/-- C17: in every state reachable from a reset state by any sequence of
`vcpu_hp_req_set`, `vcpu_hp_req_clear`, `vcpu_hp_req_fire`, `vcpu_hp_reset`,
guest reads and guest writes of arbitrary values, the six reserved bits 2..7 of
the control byte are 0, so a guest read at offset 1 returns a value in
`{0, 1, 2, 3}`. -/
theorem C17_reserved_bits_zero (s0 : vcpu_hp_state) (ops : List Op) :
    (∀ j, 2 ≤ j → j < 8 → (run (vcpu_hp_reset s0) ops).ctrl.testBit j = false) ∧
    (run (vcpu_hp_reset s0) ops).ctrl < 4 ∧
    ∃ v, vcpu_hp_read (run (vcpu_hp_reset s0) ops) 1 1 =
        .ret (run (vcpu_hp_reset s0) ops) v ∧
      (v = 0 ∨ v = 1 ∨ v = 2 ∨ v = 3) := by
  have hlt : (run (vcpu_hp_reset s0) ops).ctrl < 4 :=
    run_invariant (fun s => s.ctrl < 4) step_ctrl_lt_four ops (vcpu_hp_reset s0)
      (by show (0 : Nat) < 4; decide)
  refine ⟨fun j h2 _ => testBit_lt_four _ j hlt h2, hlt,
    (run (vcpu_hp_reset s0) ops).ctrl, ?_, by omega⟩
  simp [vcpu_hp_read, vcpu_hp_read_header, VCPU_HP_HEADER_N, VCPU_HP_HEADER_MASK_SZ,
    VCPU_HP_HEADER_CTRL]

/-! ## Clearing both pending bits -/

theorem ctrl_eq_three (c : Nat) (hc : c < 4)
    (hI : vcpu_hp_get_creg c VCPU_HP_CTRL_IPR = 1)
    (hH : vcpu_hp_get_creg c VCPU_HP_CTRL_HPR = 1) : c = 3 := by
  interval_cases c
  · exact absurd hI (by decide)
  · exact absurd hH (by decide)
  · exact absurd hI (by decide)
  · rfl

/-- C4: for every state of the device (every state the operations
`vcpu_hp_req_set`, `vcpu_hp_req_clear`, `vcpu_hp_req_fire`, `vcpu_hp_reset`,
guest reads and guest writes lead to from a reset state) in which IPR and HPR
are both set, a guest byte write to offset 1 of any value whose bits 0 and 1
are both 0 lowers the interrupt line, leaves the control byte equal to 0, and
calls the completion hook `qemu_vcpu_hp_request` exactly once. -/
theorem C4_write_ctrl_clear_both (s0 : vcpu_hp_state) (ops : List Op) (v : Nat)
    (hI : vcpu_hp_get_creg (run (vcpu_hp_reset s0) ops).ctrl VCPU_HP_CTRL_IPR = 1)
    (hH : vcpu_hp_get_creg (run (vcpu_hp_reset s0) ops).ctrl VCPU_HP_CTRL_HPR = 1)
    (hv0 : v.testBit 0 = false) (hv1 : v.testBit 1 = false) :
    ∃ t, vcpu_hp_write (run (vcpu_hp_reset s0) ops) 1 v 1 = .ret t () ∧
      t.irq = 0 ∧
      t.ctrl = 0 ∧
      t.hp_requests = (run (vcpu_hp_reset s0) ops).hp_requests + 1 ∧
      t.vcpu_mask_req = (run (vcpu_hp_reset s0) ops).vcpu_mask_req ∧
      t.vcpu_mask_resp = (run (vcpu_hp_reset s0) ops).vcpu_mask_resp ∧
      t.mask_sz = (run (vcpu_hp_reset s0) ops).mask_sz := by
  have hlt : (run (vcpu_hp_reset s0) ops).ctrl < 4 :=
    run_invariant (fun s => s.ctrl < 4) step_ctrl_lt_four ops (vcpu_hp_reset s0)
      (by show (0 : Nat) < 4; decide)
  have h3 := ctrl_eq_three _ hlt hI hH
  have hret := write_ctrl_offset (run (vcpu_hp_reset s0) ops) v
  simp only [VCPU_HP_HEADER_CTRL] at hret
  refine ⟨_, hret, ?_⟩
  rw [write_ctrl_drop_drop _ v ⟨hI, hv0⟩ ⟨hH, hv1⟩]
  refine ⟨rfl, ?_, rfl, rfl, rfl, rfl⟩
  show vcpu_hp_clear_creg (vcpu_hp_clear_creg (run (vcpu_hp_reset s0) ops).ctrl
    VCPU_HP_CTRL_IPR) VCPU_HP_CTRL_HPR = 0
  rw [h3]
  decide

theorem C4_write_ctrl_clear_both_witness :
    ∃ t, vcpu_hp_write (run (vcpu_hp_reset sample) [.req_set 5, .req_fire]) 1 0xF8 1
        = .ret t () ∧
      t.irq = 0 ∧
      t.ctrl = 0 ∧
      t.hp_requests = (run (vcpu_hp_reset sample) [.req_set 5, .req_fire]).hp_requests + 1 ∧
      t.vcpu_mask_req = (run (vcpu_hp_reset sample) [.req_set 5, .req_fire]).vcpu_mask_req ∧
      t.vcpu_mask_resp =
        (run (vcpu_hp_reset sample) [.req_set 5, .req_fire]).vcpu_mask_resp ∧
      t.mask_sz = (run (vcpu_hp_reset sample) [.req_set 5, .req_fire]).mask_sz :=
  C4_write_ctrl_clear_both sample [.req_set 5, .req_fire] 0xF8 (by decide) (by decide)
    (by decide) (by decide)

/-! ## Completion signals along a run -/

theorem hook_calls_eq_hpr_drop (s : vcpu_hp_state) (op : Op) :
    hook_calls s op = hpr_drop s op := by
  unfold hook_calls
  rcases step_cases s op with ⟨-, -, hp, -, hd⟩ | ⟨-, -, -, hp, -, hd⟩ |
    ⟨-, -, hp, -, hd⟩ | ⟨v, hv, -, hd⟩
  · rw [hp, hd]; omega
  · rw [hp, hd]; omega
  · rw [hp, hd]; omega
  · rw [hv, hd, (write_ctrl_effect s v).2.2.2.2.1]; omega

theorem hpr_drop_le_one (s : vcpu_hp_state) (op : Op) : hpr_drop s op ≤ 1 := by
  rcases step_cases s op with ⟨-, -, -, -, hd⟩ | ⟨-, -, -, -, -, hd⟩ |
    ⟨-, -, -, -, hd⟩ | ⟨v, -, -, hd⟩
  · omega
  · omega
  · omega
  · rw [hd]; split_ifs <;> omega

theorem step_hp_requests (s : vcpu_hp_state) (op : Op) :
    (step s op).state.hp_requests = s.hp_requests + hook_calls s op := by
  unfold hook_calls
  rcases step_cases s op with ⟨-, -, hp, -⟩ | ⟨-, -, -, hp, -⟩ | ⟨-, -, hp, -⟩ | ⟨v, hv, -⟩
  · omega
  · omega
  · omega
  · rw [hv, (write_ctrl_effect s v).2.2.2.2.1]; omega

theorem step_balance (s : vcpu_hp_state) (op : Op) :
    hook_calls s op + vcpu_hp_get_creg (step s op).state.ctrl VCPU_HP_CTRL_HPR ≤
      fire_ok s op + vcpu_hp_get_creg s.ctrl VCPU_HP_CTRL_HPR := by
  rw [hook_calls_eq_hpr_drop]
  rcases step_cases s op with ⟨hc, -, -, hf, hd⟩ | ⟨-, hc, -, -, hf, hd⟩ |
    ⟨hc, -, -, hf, hd⟩ | ⟨v, hv, hf, hd⟩
  · rw [hc, hf, hd]
  · rw [hf, hd]
    rcases get_creg_zero_or_one (step s .req_fire).state.ctrl VCPU_HP_CTRL_HPR with h | h <;>
      rcases get_creg_zero_or_one (step s op).state.ctrl VCPU_HP_CTRL_HPR with h | h <;>
      omega
  · rw [hc, hf, hd]
    have : vcpu_hp_get_creg 0 VCPU_HP_CTRL_HPR = 0 := by decide
    omega
  · rw [hv, hf, hd]
    have hle := (write_ctrl_effect s v).2.2.2.2.2.2.2.2.2
    split_ifs with hcond
    · obtain ⟨h1, h0⟩ := hcond
      omega
    · omega

theorem run_hp_requests (ops : List Op) :
    ∀ s, (run s ops).hp_requests = s.hp_requests + count_along hook_calls s ops := by
  induction ops with
  | nil => intro s; rfl
  | cons op ops ih =>
    intro s
    have hs := step_hp_requests s op
    rcases run_cons s op ops with ⟨t, -, ht, hrun, hcount⟩ | ⟨hrun, hcount⟩
    · rw [hrun, hcount, ih t]
      rw [ht] at hs
      omega
    · rw [hrun, hcount]
      exact hs

theorem run_balance (ops : List Op) :
    ∀ s, count_along hook_calls s ops +
        vcpu_hp_get_creg (run s ops).ctrl VCPU_HP_CTRL_HPR ≤
      count_along fire_ok s ops + vcpu_hp_get_creg s.ctrl VCPU_HP_CTRL_HPR := by
  induction ops with
  | nil => intro s; exact Nat.le_refl _
  | cons op ops ih =>
    intro s
    have hs := step_balance s op
    rcases run_cons s op ops with ⟨t, -, ht, hrun, hcount⟩ | ⟨hrun, hcount⟩
    · rw [hrun, hcount, hcount]
      rw [ht] at hs
      have := ih t
      omega
    · rw [hrun, hcount, hcount]
      exact hs

theorem count_along_congr (f g : vcpu_hp_state → Op → Nat) (h : ∀ s op, f s op = g s op)
    (ops : List Op) : ∀ s, count_along f s ops = count_along g s ops := by
  have hfg : f = g := funext fun s => funext fun op => h s op
  intro s
  rw [hfg]

/-- C18: for every sequence of operations (`vcpu_hp_req_set`,
`vcpu_hp_req_clear`, `vcpu_hp_req_fire`, `vcpu_hp_reset`, guest reads, guest
writes) starting from a reset state, the completion hook is called exactly
once for each HPR transition from 1 to 0 made by a guest control write, each
guest write calls it at most once, and the total number of calls never exceeds
the number of `vcpu_hp_req_fire` calls that returned 1. -/
theorem C18_completion_once_per_cycle (s0 : vcpu_hp_state) (ops : List Op) :
    (∀ s op, hook_calls s op = hpr_drop s op) ∧
    (∀ s o v, hook_calls s (.write o v) ≤ 1) ∧
    count_along hook_calls (vcpu_hp_reset s0) ops =
      count_along hpr_drop (vcpu_hp_reset s0) ops ∧
    (run (vcpu_hp_reset s0) ops).hp_requests =
      (vcpu_hp_reset s0).hp_requests + count_along hook_calls (vcpu_hp_reset s0) ops ∧
    count_along hook_calls (vcpu_hp_reset s0) ops ≤
      count_along fire_ok (vcpu_hp_reset s0) ops := by
  refine ⟨hook_calls_eq_hpr_drop, ?_, ?_, run_hp_requests ops _, ?_⟩
  · intro s o v
    rw [hook_calls_eq_hpr_drop]
    exact hpr_drop_le_one s _
  · exact count_along_congr _ _ hook_calls_eq_hpr_drop ops _
  · have h := run_balance ops (vcpu_hp_reset s0)
    have h0 : vcpu_hp_get_creg (vcpu_hp_reset s0).ctrl VCPU_HP_CTRL_HPR = 0 := by
      show vcpu_hp_get_creg 0 VCPU_HP_CTRL_HPR = 0
      decide
    omega

/-! ## The interrupt line and IPR -/

theorem step_ipr_implies_irq (s : vcpu_hp_state) (op : Op)
    (h : vcpu_hp_get_creg s.ctrl VCPU_HP_CTRL_IPR = 1 → s.irq = 1) :
    vcpu_hp_get_creg (step s op).state.ctrl VCPU_HP_CTRL_IPR = 1 →
      (step s op).state.irq = 1 := by
  rcases step_cases s op with ⟨hc, hq, -⟩ | ⟨-, -, hq, -⟩ | ⟨hc, -⟩ | ⟨v, hv, -⟩
  · rw [hc, hq]; exact h
  · intro _; exact hq
  · rw [hc]
    intro h1
    have h0 : vcpu_hp_get_creg 0 VCPU_HP_CTRL_IPR = 0 := by decide
    omega
  · rw [hv]
    intro h1
    have hle := (write_ctrl_effect s v).2.2.2.2.2.2.2.2.1
    have hirq := (write_ctrl_effect s v).2.2.2.1
    have hs1 : vcpu_hp_get_creg s.ctrl VCPU_HP_CTRL_IPR = 1 := by
      rcases get_creg_zero_or_one s.ctrl VCPU_HP_CTRL_IPR with h0 | h0 <;> omega
    rw [hirq, if_neg (by omega)]
    exact h hs1

theorem init_ctrl (max_cpus : Int) (junk_req junk_resp : Nat → Nat) :
    (vcpu_hp_init max_cpus junk_req junk_resp).ctrl = 0 ∧
    (vcpu_hp_init max_cpus junk_req junk_resp).irq = 0 ∧
    (vcpu_hp_init max_cpus junk_req junk_resp).hp_requests = 0 :=
  ⟨rfl, rfl, rfl⟩

/-- C14, the code on the failing input: on a freshly constructed controller
(interrupt line low, state as left by `vcpu_hp_reset`), `vcpu_hp_req_fire`
followed by `vcpu_hp_reset` ends with the interrupt line asserted and the IPR
bit 0, because `vcpu_hp_reset` zeroes the control byte without lowering the
line. The other half of the invariant does hold: in every state reachable by
the listed operations, IPR = 1 implies that the line is asserted. -/
theorem C14_reset_leaves_line_asserted (max_cpus : Int) (junk_req junk_resp : Nat → Nat) :
    (run (vcpu_hp_init max_cpus junk_req junk_resp) [.req_fire, .reset]).irq = 1 ∧
    vcpu_hp_get_creg
      (run (vcpu_hp_init max_cpus junk_req junk_resp) [.req_fire, .reset]).ctrl
      VCPU_HP_CTRL_IPR = 0 ∧
    ∀ ops : List Op,
      vcpu_hp_get_creg (run (vcpu_hp_init max_cpus junk_req junk_resp) ops).ctrl
        VCPU_HP_CTRL_IPR = 1 →
      (run (vcpu_hp_init max_cpus junk_req junk_resp) ops).irq = 1 := by
  obtain ⟨hc, hq, -⟩ := init_ctrl max_cpus junk_req junk_resp
  have hH : vcpu_hp_get_creg (vcpu_hp_init max_cpus junk_req junk_resp).ctrl
      VCPU_HP_CTRL_HPR = 0 := by
    rw [hc]; decide
  have hfire := fire_of_not_pending _ hH
  refine ⟨?_, ?_, ?_⟩
  · simp only [run, step, hfire, Option.getD]
    rfl
  · simp only [run, step, hfire, Option.getD]
    show vcpu_hp_get_creg 0 VCPU_HP_CTRL_IPR = 0
    decide
  · intro ops
    refine run_invariant
      (fun s => vcpu_hp_get_creg s.ctrl VCPU_HP_CTRL_IPR = 1 → s.irq = 1)
      step_ipr_implies_irq ops _ ?_
    intro h1
    rw [hc] at h1
    have h0 : vcpu_hp_get_creg 0 VCPU_HP_CTRL_IPR = 0 := by decide
    omega

/-! ## Negative cpu indices -/

theorem get_mask_offset_safe_of_nonneg (s : vcpu_hp_state) (i : Int) (h0 : 0 ≤ i)
    (h31 : i < 2 ^ 31) (hin : (vcpu_hp_get_mask_offset s i).1 = 1) :
    i < 8 * (s.mask_sz : Int) ∧
    (vcpu_hp_get_mask_offset s i).2.1 < s.mask_sz ∧
    (vcpu_hp_get_mask_offset s i).2.2 ≤ 7 := by
  rw [get_mask_offset_nonneg s i h0 (by omega)] at hin ⊢
  simp only at hin ⊢
  have hlt : (i / 8).toNat < s.mask_sz := by
    by_contra hn
    simp [hn] at hin
  have := Int.emod_lt_of_pos i (show (0 : Int) < 8 by decide)
  have := Int.emod_nonneg i (show (8 : Int) ≠ 0 by decide)
  refine ⟨by omega, hlt, by omega⟩

theorem get_mask_offset_rejects_low (s : vcpu_hp_state) (i : Int) (hlo : -(2 ^ 31) ≤ i)
    (hhi : i ≤ -8) (hsz : s.mask_sz * 2 < 2 ^ 31) :
    (vcpu_hp_get_mask_offset s i).1 = 0 := by
  obtain ⟨j, rfl⟩ : ∃ j : Int, i = -j := ⟨-i, by omega⟩
  have hj0 : (0 : Int) ≤ j := by omega
  unfold vcpu_hp_get_mask_offset to_unsigned BITS_PER_BYTE
  simp only
  rw [Int.neg_tdiv, Int.tdiv_eq_ediv hj0 (by decide)]
  have hq1 : 1 ≤ j / 8 := by omega
  have hq2 : j / 8 ≤ 2 ^ 28 := by omega
  have hge : ¬ ((-(j / 8)) % 2 ^ 32).toNat < s.mask_sz := by omega
  rw [if_neg hge]

/-- C19, the code on the failing inputs: for every `cpu_idx` from -7 to -1 and
every `mask_sz >= 1`, `vcpu_hp_get_mask_offset` reports the index in range
(`cpu_idx / 8` truncates to 0) although `cpu_idx < 0`, and the bit offset it
stores is `cpu_idx + 2^32`, far above 7, so `1 << off_bit` in
`vcpu_hp_req_set`, `vcpu_hp_req_clear` and `vcpu_hp_resp_is_set` is out of
range. -/
theorem C19_negative_index_in_range (s : vcpu_hp_state) (h1 : 1 ≤ s.mask_sz) (i : Int)
    (hlo : -8 < i) (hhi : i < 0) :
    vcpu_hp_get_mask_offset s i = (1, 0, (2 ^ 32 + i).toNat) ∧
    7 < (vcpu_hp_get_mask_offset s i).2.2 ∧
    ¬ (0 ≤ i ∧ i < 8 * (s.mask_sz : Int)) := by
  have hdm : Int.tdiv i 8 = 0 ∧ Int.tmod i 8 = i := by
    interval_cases i <;> decide
  have hoff : vcpu_hp_get_mask_offset s i = (1, 0, (2 ^ 32 + i).toNat) := by
    unfold vcpu_hp_get_mask_offset to_unsigned BITS_PER_BYTE
    simp only
    rw [hdm.1, hdm.2]
    have hpos : (0 : Nat) < s.mask_sz := by omega
    have e1 : ((0 : Int) % 2 ^ 32).toNat = 0 := by decide
    have e2 : (i % 2 ^ 32).toNat = (2 ^ 32 + i).toNat := by omega
    rw [e1, e2]
    simp [hpos]
  refine ⟨hoff, ?_, by omega⟩
  rw [hoff]
  show 7 < (2 ^ 32 + i).toNat
  omega

theorem C19_negative_index_in_range_witness :
    1 ≤ sample_reset.mask_sz ∧ (-8 : Int) < -1 ∧ (-1 : Int) < 0 ∧
    (vcpu_hp_get_mask_offset sample_reset (-1) = (1, 0, (2 ^ 32 + (-1 : Int)).toNat) ∧
    7 < (vcpu_hp_get_mask_offset sample_reset (-1)).2.2 ∧
    ¬ (0 ≤ (-1 : Int) ∧ (-1 : Int) < 8 * (sample_reset.mask_sz : Int))) :=
  ⟨by decide, by decide, by decide,
    C19_negative_index_in_range sample_reset (by decide) (-1) (by decide) (by decide)⟩

end VcpuHp
